import Mathlib

/-! Self-signed certificate generator (`certificateGeneratorSelfSigned.go`).

A shallow embedding of `SelfSignedCertificateGenerator.Generate`,
`determineECDSACurve` and `pemBlockForKey`.

* Go strings are Lean strings; `os.PathSeparator` is the Unix `/`.
* The filesystem is an explicit state: a map from path to entry. `os.Stat`
  reads it, `os.Mkdir`, `os.Create`, `os.OpenFile` and the PEM writes update it.
  A directory created without the owner search bit (the mode is `0740` less
  the umask) cannot be searched by its owner unless that is the superuser:
  the paths under it then answer `EACCES` to `os.Stat`.
* Everything the routine obtains from outside (clock, random source, key
  generation, certificate signing, key marshalling, PEM encoding, the process
  umask, and the faults the platform may raise on a call) is a field of `Env`.
* `Generate` returns its result together with the filesystem it leaves and the
  ordered list of calls it made to its collaborators.
* `Generate` is one Go function; here it is cut into four consecutive parts
  (`Generate`, `Generate.guard`, `Generate.issue`, `Generate.persist`), each
  ending in the next, with the source lines named at each part.
* Logging (`DebugVerbose`, `log.Error`) has no effect on the result or the
  filesystem and is left out. `os.Stat` only ever returns an `*os.PathError`,
  so the type assertions of lines 39, 59 and 73 cannot fail.
* Times and durations are integers counting nanoseconds; `Time.Add` of a
  64-bit duration to a clock reading is the integer sum.
-/

namespace Talisman

/-! ## Strings -/

/-- Unix value of `os.PathSeparator`. -/
def PathSeparator : Char := '/'

/-- Go `string(os.PathSeparator)`. -/
def PathSeparatorString : String := String.singleton PathSeparator

/-- Go `strings.TrimRight`: drop every trailing character that occurs in `cutset`. -/
def TrimRight (s cutset : String) : String :=
  ⟨s.data.rdropWhile (fun ch => cutset.data.contains ch)⟩

/-- Go `strings.Join`. -/
def Join : List String → String → String
  | [], _ => ""
  | [a], _ => a
  | a :: b :: rest, sep => a ++ sep ++ Join (b :: rest) sep

/-- Go `filepath.IsAbs` on Unix: the path begins with the separator. -/
def IsAbs (path : String) : Bool := path.data.head? == some PathSeparator

/-! ## Errors -/

/-- A `syscall.Errno` value. -/
abbrev Errno := Nat

/-- Value of `syscall.ENOENT`. -/
def ENOENT : Errno := 2

/-- Value of `syscall.EACCES`. -/
def EACCES : Errno := 13

/-- Value of `syscall.EEXIST`. -/
def EEXIST : Errno := 17

/-- Value of `syscall.EISDIR`. -/
def EISDIR : Errno := 21

/-- Modelled from the spec: the error types `CertificateExistsErr`, `KeyExistsErr` and
`InvalidKeySizeError` are declared outside the source file; the first two carry the
offending common name. The other constructors are the errors the routine passes on:
an `*os.PathError`, the `errors.New` string error, an error reported by a
cryptographic or encoding primitive, and the runtime abort on a nil PEM block. -/
inductive Error
  | PathError (Op : String) (Path : String) (Err : Errno)
  | CertificateExistsErr (CommonName : String)
  | KeyExistsErr (CommonName : String)
  | InvalidKeySizeError
  | errorString (s : String)
  | primitive (msg : String)
  | nilPointerDereference
deriving DecidableEq

/-- A Go `(value, error)` pair of which exactly one is meaningful. -/
inductive Result (α : Type)
  | ok (v : α)
  | error (err : Error)
deriving DecidableEq

/-! ## Request, response, generator -/

/-- Modelled from the spec: the `Algorithm` type and its constants `RSA` and `ECDSA` are
declared outside the source file; `other` stands for every value that is neither. -/
inductive Algorithm
  | RSA
  | ECDSA
  | other (v : Nat)
deriving DecidableEq

/-- Modelled from the spec: `GenerateRequest` is declared outside the source file; these
are the four fields `Generate` reads. -/
structure GenerateRequest where
  CommonName : String
  AdminEmail : String
  Algorithm : Algorithm
  KeySize : Int
deriving DecidableEq

/-- Modelled from the spec: `GenerateResponse` is declared outside the source file; these
are the two fields `Generate` fills. -/
structure GenerateResponse where
  KeyPath : String
  CertPath : String
deriving DecidableEq

/-- The generator's configuration; `CertificateValidity` is a `time.Duration` in
nanoseconds. -/
structure SelfSignedCertificateGenerator where
  CertificateBasePath : String
  CertificateValidity : Int
deriving DecidableEq

/-! ## Keys and certificates -/

/-- The named curves of `crypto/elliptic`. -/
inductive Curve
  | P224
  | P256
  | P384
  | P521
deriving DecidableEq

/-- Go `rsa.PublicKey`. -/
structure RSAPublicKey where
  N : Nat
  E : Int
deriving DecidableEq

/-- Go `rsa.PrivateKey`; the public key is an embedded field. -/
structure RSAPrivateKey where
  PublicKey : RSAPublicKey
  D : Nat
  Primes : List Nat
deriving DecidableEq

/-- Go `ecdsa.PublicKey`. -/
structure ECDSAPublicKey where
  Curve : Curve
  X : Int
  Y : Int
deriving DecidableEq

/-- Go `ecdsa.PrivateKey`; the public key is an embedded field. -/
structure ECDSAPrivateKey where
  PublicKey : ECDSAPublicKey
  D : Int
deriving DecidableEq

/-- A key held in an `interface{}`: the pointer types the routine stores there, and
`other` for any value of another dynamic type. -/
inductive AnyKey
  | rsaPublicKey (k : RSAPublicKey)
  | ecdsaPublicKey (k : ECDSAPublicKey)
  | rsaPrivateKey (k : RSAPrivateKey)
  | ecdsaPrivateKey (k : ECDSAPrivateKey)
  | other
deriving DecidableEq

/-- Go `x509.KeyUsage` is a bit set. -/
abbrev KeyUsage := Nat

/-- `x509.KeyUsageDigitalSignature = 1 << 0`. -/
def KeyUsageDigitalSignature : KeyUsage := 1

/-- `x509.KeyUsageKeyEncipherment = 1 << 2`. -/
def KeyUsageKeyEncipherment : KeyUsage := 4

/-- `x509.KeyUsageCertSign = 1 << 5`. -/
def KeyUsageCertSign : KeyUsage := 32

/-- `x509.KeyUsageCRLSign = 1 << 6`. -/
def KeyUsageCRLSign : KeyUsage := 64

/-- Go `x509.ExtKeyUsage` is an enumeration counted from `ExtKeyUsageAny = 0`. -/
abbrev ExtKeyUsage := Nat

/-- `x509.ExtKeyUsageServerAuth`. -/
def ExtKeyUsageServerAuth : ExtKeyUsage := 1

/-- Go `pkix.Name`, the fields the routine sets. -/
structure Name where
  Organization : List String
  CommonName : String
deriving DecidableEq

/-- Go `x509.Certificate`, the fields the routine sets; times are nanoseconds. -/
structure Certificate where
  DNSNames : List String
  SerialNumber : Nat
  Subject : Name
  NotBefore : Int
  NotAfter : Int
  KeyUsage : KeyUsage
  ExtKeyUsage : List ExtKeyUsage
  BasicConstraintsValid : Bool
  EmailAddresses : List String
  IsCA : Bool
deriving DecidableEq

/-- Go `pem.Block` without headers. -/
structure Block where
  type : String
  Bytes : List Nat
deriving DecidableEq

/-! ## Filesystem -/

/-- What a path holds. `fault` is a path on which `stat` fails with the given errno
(permission denied, a non-directory on the way, the empty path, ...). -/
inductive Entry
  | absent
  | fault (errno : Errno)
  | dir (mode : Nat)
  | file (mode : Nat) (content : List Nat)
deriving DecidableEq

/-- The filesystem state. -/
abbrev FS := String → Entry

/-- Replace the entry at one path. -/
def FS.set (fs : FS) (name : String) (e : Entry) : FS :=
  fun p => if p = name then e else fs p

/-- Append bytes to the file at `name`. -/
def FS.append (fs : FS) (name : String) (data : List Nat) : FS :=
  match fs name with
  | .file mode content => fs.set name (.file mode (content ++ data))
  | _ => fs

/-- The permission bits a new entry gets: `perm &^ umask`. -/
def maskPerm (perm umask : Nat) : Nat := perm ^^^ (perm &&& umask)

/-- Go `os.Stat`, the error half only (the file info is discarded by the caller). -/
def Stat (fs : FS) (name : String) : Option Errno :=
  match fs name with
  | .absent => some ENOENT
  | .fault errno => some errno
  | .dir _ => none
  | .file _ _ => none

/-- The path lies under the directory: it begins with the directory's name followed by
a separator. -/
def under (dir path : String) : Bool := (dir.data ++ [PathSeparator]).isPrefixOf path.data

/-- The owner of a directory of this mode may search it (the owner execute bit). -/
def ownerSearch (mode : Nat) : Bool := mode &&& 0o100 != 0

/-- The filesystem a process sees once it has created the directory `name` with the given
mode. The new directory is owned by the process; unless the process is the superuser or
the mode keeps the owner search bit, the paths under the directory, which held nothing,
now answer `EACCES`. -/
def FS.mkdir (superuser : Bool) (fs : FS) (name : String) (mode : Nat) : FS :=
  fun p =>
    if p = name then .dir mode
    else if !superuser && !ownerSearch mode && under name p && decide (fs p = .absent) then
      .fault EACCES
    else fs p

/-- Go `os.Mkdir`; `fault` is an error raised by the platform. -/
def Mkdir (umask : Nat) (superuser : Bool) (fault : Option Errno) (fs : FS) (name : String)
    (perm : Nat) : Except Errno FS :=
  match fault with
  | some errno => .error errno
  | none =>
    match fs name with
    | .absent => .ok (fs.mkdir superuser name (maskPerm perm umask))
    | .fault errno => .error errno
    | .dir _ => .error EEXIST
    | .file _ _ => .error EEXIST

/-- Go `os.OpenFile` with `O_CREATE|O_TRUNC` in the flags; `fault` is an error raised
by the platform. -/
def OpenFile (umask : Nat) (fault : Option Errno) (fs : FS) (name : String) (perm : Nat) :
    Except Errno FS :=
  match fault with
  | some errno => .error errno
  | none =>
    match fs name with
    | .absent => .ok (fs.set name (.file (maskPerm perm umask) []))
    | .fault errno => .error errno
    | .dir _ => .error EISDIR
    | .file mode _ => .ok (fs.set name (.file mode []))

/-- Go `os.Create`: `OpenFile(name, O_RDWR|O_CREATE|O_TRUNC, 0666)`. -/
def Create (umask : Nat) (fault : Option Errno) (fs : FS) (name : String) : Except Errno FS :=
  OpenFile umask fault fs name 0o666

/-- Writing `data` to the open file `name`. A fault `(errno, n)` stops the write after
`n` bytes. -/
def Write (fault : Option (Errno × Nat)) (fs : FS) (name : String) (data : List Nat) :
    FS × Option Errno :=
  match fault with
  | none => (fs.append name data, none)
  | some (errno, n) => (fs.append name (data.take n), some errno)

/-! ## Collaborators -/

/-- Everything one call of `Generate` obtains from outside. -/
structure Env where
  /-- the process umask -/
  umask : Nat
  /-- the process is the superuser, who may search every directory -/
  superuser : Bool
  /-- `time.Now()` -/
  now : Int
  /-- `rand.Int(rand.Reader, max)` -/
  randInt : Nat → Result Nat
  /-- `ecdsa.GenerateKey(curve, rand.Reader)` -/
  ecdsaGenerateKey : Curve → Result ECDSAPrivateKey
  /-- `rsa.GenerateKey(rand.Reader, bits)` -/
  rsaGenerateKey : Int → Result RSAPrivateKey
  /-- `x509.CreateCertificate(rand.Reader, template, parent, pub, priv)` -/
  createCertificate : Certificate → Certificate → AnyKey → AnyKey → Result (List Nat)
  /-- `x509.MarshalPKCS1PrivateKey` -/
  marshalPKCS1PrivateKey : RSAPrivateKey → List Nat
  /-- `x509.MarshalECPrivateKey` -/
  marshalECPrivateKey : ECDSAPrivateKey → Result (List Nat)
  /-- the bytes `pem.Encode` writes for a block -/
  pemEncode : Block → List Nat
  /-- platform fault on `os.Mkdir` -/
  mkdirFault : Option Errno
  /-- platform fault on `os.Create` of the certificate -/
  createFault : Option Errno
  /-- platform fault while writing the certificate -/
  certWriteFault : Option (Errno × Nat)
  /-- platform fault on closing the certificate -/
  certCloseFault : Option Errno
  /-- platform fault on `os.OpenFile` of the key -/
  openKeyFault : Option Errno
  /-- platform fault while writing the key -/
  keyWriteFault : Option (Errno × Nat)
  /-- platform fault on closing the key -/
  keyCloseFault : Option Errno

/-- A call `Generate` makes to a collaborator, with its arguments. -/
inductive Event
  | stat (name : String)
  | mkdir (name : String) (perm : Nat)
  | randInt (max : Nat)
  | ecdsaGenerateKey (curve : Curve)
  | rsaGenerateKey (bits : Int)
  | createCertificate (template parent : Certificate) (pub priv : AnyKey)
  | create (name : String)
  | openFile (name : String) (perm : Nat)
  | pemEncode (name : String) (block : Block)
  | close (name : String)
deriving DecidableEq

/-- What a call of `Generate` leaves: the returned pair, the filesystem, and the calls
made, in order. -/
structure Outcome where
  result : Result GenerateResponse
  fs : FS
  trace : List Event

/-! ## The routine -/

/-- Returns the curve for a given ECDSA key size (source lines 207-221). -/
def determineECDSACurve (keySize : Int) : Result Curve :=
  if keySize = 224 then .ok .P224
  else if keySize = 256 then .ok .P256
  else if keySize = 384 then .ok .P384
  else if keySize = 521 then .ok .P521
  else .error .InvalidKeySizeError

/-- The PEM block for a private key (source lines 223-237); `none` is the nil block of
the default case. -/
def pemBlockForKey (env : Env) (key : AnyKey) : Result (Option Block) :=
  match key with
  | .rsaPrivateKey k => .ok (some ⟨"RSA PRIVATE KEY", env.marshalPKCS1PrivateKey k⟩)
  | .ecdsaPrivateKey k =>
    match env.marshalECPrivateKey k with
    | .error err => .error err
    | .ok b => .ok (some ⟨"EC PRIVATE KEY", b⟩)
  | _ => .ok none

/-- The certificate template (source lines 85-86 and 97-118). -/
def Generate.template (c : SelfSignedCertificateGenerator) (request : GenerateRequest)
    (notBefore : Int) (serialNumber : Nat) : Certificate :=
  let notAfter := notBefore + c.CertificateValidity
  let template : Certificate :=
    { DNSNames := [request.CommonName]
      SerialNumber := serialNumber
      Subject := { Organization := ["Ionoverse"], CommonName := "" }
      NotBefore := notBefore
      NotAfter := notAfter
      KeyUsage := KeyUsageKeyEncipherment ||| KeyUsageDigitalSignature
      ExtKeyUsage := [ExtKeyUsageServerAuth]
      BasicConstraintsValid := true
      EmailAddresses := [request.AdminEmail]
      IsCA := false }
  let hosts := [request.CommonName]
  let template := { template with DNSNames := hosts }
  let template :=
    { template with Subject := { template.Subject with CommonName := request.CommonName } }
  let template := { template with IsCA := false }
  let template := { template with KeyUsage := template.KeyUsage ||| KeyUsageKeyEncipherment }
  let template := { template with KeyUsage := template.KeyUsage ||| KeyUsageCertSign }
  let template := { template with KeyUsage := template.KeyUsage ||| KeyUsageCRLSign }
  template

/-- Writing the certificate and key files (source lines 164-204). -/
def Generate.persist (env : Env) (fs : FS) (tr : List Event) (certPath keyPath : String)
    (theKey : AnyKey) (theDerBytes : List Nat) : Outcome :=
  let tr := tr ++ [.create certPath]
  match Create env.umask env.createFault fs certPath with
  | .error errno => ⟨.error (.PathError "open" certPath errno), fs, tr⟩
  | .ok fs =>
    let certBlock : Block := ⟨"CERTIFICATE", theDerBytes⟩
    let tr := tr ++ [.pemEncode certPath certBlock]
    let written := Write env.certWriteFault fs certPath (env.pemEncode certBlock)
    let fs := written.1
    match written.2 with
    | some errno => ⟨.error (.PathError "write" certPath errno), fs, tr⟩
    | none =>
      -- an error on closing the certificate is logged only
      let tr := tr ++ [.close certPath]
      let tr := tr ++ [.openFile keyPath 0o600]
      match OpenFile env.umask env.openKeyFault fs keyPath 0o600 with
      | .error errno => ⟨.error (.PathError "open" keyPath errno), fs, tr⟩
      | .ok fs =>
        match pemBlockForKey env theKey with
        | .error err => ⟨.error err, fs, tr⟩
        | .ok none => ⟨.error .nilPointerDereference, fs, tr⟩
        | .ok (some pemBlock) =>
          let tr := tr ++ [.pemEncode keyPath pemBlock]
          let written := Write env.keyWriteFault fs keyPath (env.pemEncode pemBlock)
          let fs := written.1
          match written.2 with
          | some errno => ⟨.error (.PathError "write" keyPath errno), fs, tr⟩
          | none =>
            let tr := tr ++ [.close keyPath]
            match env.keyCloseFault with
            | some errno => ⟨.error (.PathError "close" keyPath errno), fs, tr⟩
            | none => ⟨.ok { KeyPath := keyPath, CertPath := certPath }, fs, tr⟩

/-- The serial number limit of source line 88: `1` shifted left by 128. -/
def serialNumberLimit : Nat := 1 <<< 128

/-- Serial number, template, key generation and signing (source lines 85-162). -/
def Generate.issue (c : SelfSignedCertificateGenerator) (env : Env) (fs : FS)
    (tr : List Event) (request : GenerateRequest) (certPath keyPath : String) : Outcome :=
  let notBefore := env.now
  let tr := tr ++ [.randInt serialNumberLimit]
  match env.randInt serialNumberLimit with
  | .error err => ⟨.error err, fs, tr⟩
  | .ok serialNumber =>
    let template := Generate.template c request notBefore serialNumber
    match request.Algorithm with
    | .ECDSA =>
      match determineECDSACurve request.KeySize with
      | .error err => ⟨.error err, fs, tr⟩
      | .ok curve =>
        let tr := tr ++ [.ecdsaGenerateKey curve]
        match env.ecdsaGenerateKey curve with
        | .error err => ⟨.error err, fs, tr⟩
        | .ok key =>
          let tr := tr ++
            [.createCertificate template template (.ecdsaPublicKey key.PublicKey)
              (.ecdsaPrivateKey key)]
          match env.createCertificate template template (.ecdsaPublicKey key.PublicKey)
              (.ecdsaPrivateKey key) with
          | .error err => ⟨.error err, fs, tr⟩
          | .ok derBytes =>
            Generate.persist env fs tr certPath keyPath (.ecdsaPrivateKey key) derBytes
    | .RSA =>
      let tr := tr ++ [.rsaGenerateKey request.KeySize]
      match env.rsaGenerateKey request.KeySize with
      | .error err => ⟨.error err, fs, tr⟩
      | .ok key =>
        let tr := tr ++
          [.createCertificate template template (.rsaPublicKey key.PublicKey)
            (.rsaPrivateKey key)]
        match env.createCertificate template template (.rsaPublicKey key.PublicKey)
            (.rsaPrivateKey key) with
        | .error err => ⟨.error err, fs, tr⟩
        | .ok derBytes =>
          Generate.persist env fs tr certPath keyPath (.rsaPrivateKey key) derBytes
    | .other _ => ⟨.error (.errorString "unsupported algorithm"), fs, tr⟩

/-- The directory path of source line 35. -/
def Generate.certBasePath (c : SelfSignedCertificateGenerator) : String :=
  TrimRight c.CertificateBasePath PathSeparatorString

/-- The certificate path of source line 51. -/
def Generate.certPath (certBasePath : String) (request : GenerateRequest) : String :=
  Join [certBasePath, request.CommonName ++ ".pem"] PathSeparatorString

/-- The key path of source line 53. -/
def Generate.keyPath (certBasePath : String) (request : GenerateRequest) : String :=
  Join [certBasePath, request.CommonName ++ "-key.pem"] PathSeparatorString

/-- The two target paths and the existence checks (source lines 51-83). -/
def Generate.guard (c : SelfSignedCertificateGenerator) (env : Env) (fs : FS)
    (tr : List Event) (request : GenerateRequest) (certBasePath : String) : Outcome :=
  let certPath := Generate.certPath certBasePath request
  let keyPath := Generate.keyPath certBasePath request
  let tr := tr ++ [.stat certPath]
  match Stat fs certPath with
  | some errno =>
    if errno = ENOENT then
      let tr := tr ++ [.stat keyPath]
      match Stat fs keyPath with
      | some errno =>
        if errno = ENOENT then
          Generate.issue c env fs tr request certPath keyPath
        else ⟨.error (.PathError "stat" keyPath errno), fs, tr⟩
      | none => ⟨.error (.KeyExistsErr request.CommonName), fs, tr⟩
    else ⟨.error (.PathError "stat" certPath errno), fs, tr⟩
  | none => ⟨.error (.CertificateExistsErr request.CommonName), fs, tr⟩

/-- The routine `SelfSignedCertificateGenerator.Generate` (source lines 33-205); this
part is the directory ensure of lines 34-50. -/
def Generate (c : SelfSignedCertificateGenerator) (env : Env) (fs : FS)
    (request : GenerateRequest) : Outcome :=
  let certBasePath := Generate.certBasePath c
  let tr := [Event.stat certBasePath]
  match Stat fs certBasePath with
  | some errno =>
    if errno = ENOENT then
      let tr := tr ++ [.mkdir certBasePath 0o740]
      match Mkdir env.umask env.superuser env.mkdirFault fs certBasePath 0o740 with
      | .error errno => ⟨.error (.PathError "mkdir" certBasePath errno), fs, tr⟩
      | .ok fs => Generate.guard c env fs tr request certBasePath
    else ⟨.error (.PathError "stat" certBasePath errno), fs, tr⟩
  | none => Generate.guard c env fs tr request certBasePath

/-! ## A concrete environment and filesystem for evaluation -/

/-- An environment in which every collaborator succeeds. -/
def demoEnv : Env where
  umask := 0o022
  superuser := false
  now := 1000
  randInt := fun _ => .ok 7
  ecdsaGenerateKey := fun curve => .ok ⟨⟨curve, 5, 9⟩, 3⟩
  rsaGenerateKey := fun _ => .ok ⟨⟨3233, 17⟩, 2753, [61, 53]⟩
  createCertificate := fun t _ _ _ => .ok [48, t.SerialNumber]
  marshalPKCS1PrivateKey := fun k => [k.PublicKey.N, k.D]
  marshalECPrivateKey := fun k => .ok [k.D.toNat]
  pemEncode := fun b => 45 :: b.Bytes
  mkdirFault := none
  createFault := none
  certWriteFault := none
  certCloseFault := none
  openKeyFault := none
  keyWriteFault := none
  keyCloseFault := none

/-- A filesystem holding only the root directory. -/
def rootFS : FS := fun p => if p = "/" then .dir 0o755 else .absent

/-- The root directory and the directory `/certs`. -/
def dirFS : FS := rootFS.set "/certs" (.dir 0o755)

/-- The example request of the specification. -/
def demoRequest : GenerateRequest :=
  { CommonName := "svc.internal", AdminEmail := "ops@example.com", Algorithm := .RSA,
    KeySize := 2048 }

/-- A generator writing under `/certs`, valid for one hour. -/
def demoGenerator : SelfSignedCertificateGenerator :=
  { CertificateBasePath := "/certs/", CertificateValidity := 3600000000000 }

/-- The directory `/certs` holding a certificate for `svc.internal` and no key. -/
def certFS : FS := dirFS.set "/certs/svc.internal.pem" (.file 0o644 [45, 48, 7])

/-- The directory `/certs` holding a key for `svc.internal` and no certificate. -/
def keyFS : FS := dirFS.set "/certs/svc.internal-key.pem" (.file 0o600 [45, 3233, 2753])

/-- An ECDSA request whose key size names no curve. -/
def badCurveRequest : GenerateRequest :=
  { CommonName := "svc.internal", AdminEmail := "ops@example.com", Algorithm := .ECDSA,
    KeySize := 100 }

/-- An ECDSA request for the curve P-256. -/
def ecdsaRequest : GenerateRequest :=
  { CommonName := "svc.internal", AdminEmail := "ops@example.com", Algorithm := .ECDSA,
    KeySize := 256 }

/-- A request whose algorithm is neither RSA nor ECDSA. -/
def otherRequest : GenerateRequest :=
  { CommonName := "svc.internal", AdminEmail := "ops@example.com", Algorithm := .other 7,
    KeySize := 2048 }

/-- The environment `demoEnv` under the umask `0177`, which takes the owner search bit
from a directory created with `0740`. -/
def tightEnv : Env := { demoEnv with umask := 0o177 }

/-- The environment `tightEnv` for a process that is the superuser. -/
def tightSuperuserEnv : Env := { tightEnv with superuser := true }

/-- A generator configured with a relative directory. -/
def relativeGenerator : SelfSignedCertificateGenerator :=
  { CertificateBasePath := "certs", CertificateValidity := 3600000000000 }

/-! ## Predicates used in the statements -/

/-- The calls of the persistence phase on success. -/
def persistEvents (certPath keyPath : String) (der : List Nat) (pemBlock : Block) :
    List Event :=
  [.create certPath, .pemEncode certPath ⟨"CERTIFICATE", der⟩, .close certPath,
   .openFile keyPath 0o600, .pemEncode keyPath pemBlock, .close keyPath]

/-- The calls made after the directory ensure: what each may be. -/
def lateEvent (c : SelfSignedCertificateGenerator) (env : Env) (request : GenerateRequest)
    (certPath keyPath : String) : Event → Prop
  | .stat name => name = certPath ∨ name = keyPath
  | .mkdir _ _ => False
  | .randInt max => max = serialNumberLimit
  | .ecdsaGenerateKey curve => request.Algorithm = .ECDSA ∧
      determineECDSACurve request.KeySize = .ok curve
  | .rsaGenerateKey bits => request.Algorithm = .RSA ∧ bits = request.KeySize
  | .createCertificate template parent pub priv =>
      parent = template ∧
      (∃ serialNumber, env.randInt serialNumberLimit = .ok serialNumber ∧
        template = Generate.template c request env.now serialNumber) ∧
      ((∃ key, env.rsaGenerateKey request.KeySize = .ok key ∧
          pub = .rsaPublicKey key.PublicKey ∧ priv = .rsaPrivateKey key) ∨
       (∃ curve key, determineECDSACurve request.KeySize = .ok curve ∧
          env.ecdsaGenerateKey curve = .ok key ∧
          pub = .ecdsaPublicKey key.PublicKey ∧ priv = .ecdsaPrivateKey key))
  | .create name => name = certPath
  | .openFile name perm => name = keyPath ∧ perm = 0o600
  | .pemEncode name block =>
      (name = certPath ∧ block.type = "CERTIFICATE") ∨
      (name = keyPath ∧ (block.type = "RSA PRIVATE KEY" ∨ block.type = "EC PRIVATE KEY"))
  | .close name => name = certPath ∨ name = keyPath

/-- What a successful run from the issuing phase on has done: the serial number drawn,
the key generated, the one signing call, the two files written and the calls made. -/
def Issued (c : SelfSignedCertificateGenerator) (env : Env) (request : GenerateRequest)
    (fs : FS) (certPath keyPath : String) (resp : GenerateResponse) (fsOut : FS)
    (events : List Event) : Prop :=
  ∃ (serialNumber : Nat) (pub priv : AnyKey) (keyEvent : Event) (der : List Nat)
    (pemBlock : Block),
    env.randInt serialNumberLimit = .ok serialNumber ∧
    ((request.Algorithm = .RSA ∧ ∃ key, env.rsaGenerateKey request.KeySize = .ok key ∧
        pub = .rsaPublicKey key.PublicKey ∧ priv = .rsaPrivateKey key ∧
        keyEvent = .rsaGenerateKey request.KeySize ∧
        pemBlock = ⟨"RSA PRIVATE KEY", env.marshalPKCS1PrivateKey key⟩) ∨
     (request.Algorithm = .ECDSA ∧ ∃ curve key b,
        determineECDSACurve request.KeySize = .ok curve ∧
        env.ecdsaGenerateKey curve = .ok key ∧
        pub = .ecdsaPublicKey key.PublicKey ∧ priv = .ecdsaPrivateKey key ∧
        keyEvent = .ecdsaGenerateKey curve ∧
        env.marshalECPrivateKey key = .ok b ∧ pemBlock = ⟨"EC PRIVATE KEY", b⟩)) ∧
    env.createCertificate (Generate.template c request env.now serialNumber)
      (Generate.template c request env.now serialNumber) pub priv = .ok der ∧
    pemBlockForKey env priv = .ok (some pemBlock) ∧
    resp = { KeyPath := keyPath, CertPath := certPath } ∧
    fsOut =
      (fs.set certPath
          (.file (maskPerm 0o666 env.umask) (env.pemEncode ⟨"CERTIFICATE", der⟩))).set
        keyPath (.file (maskPerm 0o600 env.umask) (env.pemEncode pemBlock)) ∧
    events =
      [.randInt serialNumberLimit, keyEvent,
        .createCertificate (Generate.template c request env.now serialNumber)
          (Generate.template c request env.now serialNumber) pub priv] ++
      persistEvents certPath keyPath der pemBlock

/-- The directory ensure has passed: the directory was there and `fs1` is the filesystem
given, or it was absent and `fs1` is the filesystem after its creation with the permission
bits `0740` less the umask. -/
def Ensured (env : Env) (fs : FS) (base : String) (fs1 : FS) (pre : List Event) : Prop :=
  (Stat fs base = none ∧ fs1 = fs ∧ pre = [.stat base]) ∨
  (Stat fs base = some ENOENT ∧ env.mkdirFault = none ∧ fs base = .absent ∧
    fs1 = fs.mkdir env.superuser base (maskPerm 0o740 env.umask) ∧
    pre = [.stat base, .mkdir base 0o740])

/-- The path holds what it held, or a file. -/
def SameOrFile (fs fs1 : FS) : Prop :=
  ∀ p, fs1 p = fs p ∨ ∃ mode content, fs1 p = .file mode content

/-! ## Paths -/

theorem certPath_eq (base : String) (request : GenerateRequest) :
    Generate.certPath base request = base ++ "/" ++ (request.CommonName ++ ".pem") := rfl

theorem keyPath_eq (base : String) (request : GenerateRequest) :
    Generate.keyPath base request = base ++ "/" ++ (request.CommonName ++ "-key.pem") := rfl

theorem certPath_ne_keyPath (base : String) (request : GenerateRequest) :
    Generate.certPath base request ≠ Generate.keyPath base request := by
  intro h
  have := congrArg String.length h
  simp [certPath_eq, keyPath_eq, String.length_append] at this
  have h1 : ".pem".length = 4 := by decide
  have h2 : "-key.pem".length = 8 := by decide
  omega

theorem certPath_ne_base (base : String) (request : GenerateRequest) :
    Generate.certPath base request ≠ base := by
  intro h
  have := congrArg String.length h
  simp [certPath_eq, String.length_append] at this
  have h0 : "/".length = 1 := by decide
  omega

theorem keyPath_ne_base (base : String) (request : GenerateRequest) :
    Generate.keyPath base request ≠ base := by
  intro h
  have := congrArg String.length h
  simp [keyPath_eq, String.length_append] at this
  have h0 : "/".length = 1 := by decide
  omega

/-! ## Filesystem lemmas -/

theorem FS.set_same (fs : FS) (name : String) (e : Entry) : fs.set name e name = e := by
  simp [FS.set]

theorem FS.set_other (fs : FS) (name : String) (e : Entry) (p : String) (h : p ≠ name) :
    fs.set name e p = fs p := by
  simp [FS.set, h]

theorem FS.append_other (fs : FS) (name : String) (data : List Nat) (p : String)
    (h : p ≠ name) : fs.append name data p = fs p := by
  unfold FS.append
  cases fs name <;> simp [FS.set, h]

theorem FS.set_set (fs : FS) (name : String) (e e1 : Entry) :
    (fs.set name e).set name e1 = fs.set name e1 := by
  funext p
  by_cases hp : p = name <;> simp [FS.set, hp]

theorem FS.set_append (fs : FS) (name : String) (mode : Nat) (data : List Nat) :
    (fs.set name (.file mode [])).append name data = fs.set name (.file mode data) := by
  unfold FS.append
  simp [FS.set_same, FS.set_set]

theorem Stat_absent_or_fault {fs : FS} {name : String} (h : Stat fs name = some ENOENT) :
    fs name = .absent ∨ fs name = .fault ENOENT := by
  unfold Stat at h
  split at h <;> simp_all

theorem OpenFile_ok {umask : Nat} {fault : Option Errno} {fs fs1 : FS} {name : String}
    {perm : Nat} (hs : Stat fs name = some ENOENT)
    (h : OpenFile umask fault fs name perm = .ok fs1) :
    fault = none ∧ fs name = .absent ∧ fs1 = fs.set name (.file (maskPerm perm umask) []) := by
  unfold OpenFile at h
  rcases Stat_absent_or_fault hs with ha | ha
  · cases fault <;> simp [ha] at h
    exact ⟨rfl, ha, h.symm⟩
  · cases fault <;> simp [ha] at h

theorem FS.mkdir_same (superuser : Bool) (fs : FS) (name : String) (mode : Nat) :
    fs.mkdir superuser name mode name = .dir mode := by
  simp [FS.mkdir]

theorem FS.mkdir_searchable {superuser : Bool} {mode : Nat}
    (h : (superuser || ownerSearch mode) = true) (fs : FS) (name : String) :
    fs.mkdir superuser name mode = fs.set name (.dir mode) := by
  funext p
  cases superuser <;> cases hs : ownerSearch mode <;> simp [hs] at h <;>
    simp [FS.mkdir, FS.set, hs]

theorem FS.mkdir_absent {superuser : Bool} {fs : FS} {name : String} {mode : Nat}
    {p : String} (hu : under name p = true)
    (h : fs.mkdir superuser name mode p = .absent) :
    (superuser || ownerSearch mode) = true := by
  unfold FS.mkdir at h
  by_cases hp : p = name
  · simp [hp] at h
  · rw [if_neg hp] at h
    by_cases ha : fs p = .absent
    · cases superuser <;> cases hs : ownerSearch mode <;> simp [hs, hu, ha] at h ⊢
    · split at h
      · cases h
      · exact absurd h ha

theorem FS.mkdir_file_iff {superuser : Bool} {fs : FS} {name : String} {mode : Nat}
    (ha : fs name = .absent) (p : String) (m : Nat) (content : List Nat) :
    fs.mkdir superuser name mode p = .file m content ↔ fs p = .file m content := by
  unfold FS.mkdir
  by_cases hp : p = name
  · subst hp
    simp [ha]
  · rw [if_neg hp]
    split
    · rename_i hc
      simp only [Bool.and_eq_true, decide_eq_true_eq] at hc
      simp [hc.2]
    · rfl

theorem under_join (base name : String) : under base (base ++ "/" ++ name) = true := by
  simp [under, PathSeparator, String.data_append]

theorem Mkdir_ok {umask : Nat} {superuser : Bool} {fault : Option Errno} {fs fs1 : FS}
    {name : String} {perm : Nat} (h : Mkdir umask superuser fault fs name perm = .ok fs1) :
    fault = none ∧ fs name = .absent ∧
      fs1 = fs.mkdir superuser name (maskPerm perm umask) := by
  unfold Mkdir at h
  cases fault with
  | some e => simp at h
  | none =>
    cases ha : fs name <;> simp [ha] at h
    exact ⟨rfl, rfl, h.symm⟩

/-! ## The persistence phase -/

theorem persist_ok {env : Env} {fs : FS} {tr : List Event} {certPath keyPath : String}
    {theKey : AnyKey} {der : List Nat} {resp : GenerateResponse}
    (hne : certPath ≠ keyPath)
    (hc : Stat fs certPath = some ENOENT) (hk : Stat fs keyPath = some ENOENT)
    (h : (Generate.persist env fs tr certPath keyPath theKey der).result = .ok resp) :
    ∃ pemBlock, pemBlockForKey env theKey = .ok (some pemBlock) ∧
      resp = { KeyPath := keyPath, CertPath := certPath } ∧
      (Generate.persist env fs tr certPath keyPath theKey der).fs =
        (fs.set certPath (.file (maskPerm 0o666 env.umask) (env.pemEncode ⟨"CERTIFICATE", der⟩))).set
          keyPath (.file (maskPerm 0o600 env.umask) (env.pemEncode pemBlock)) ∧
      (Generate.persist env fs tr certPath keyPath theKey der).trace =
        tr ++ persistEvents certPath keyPath der pemBlock := by
  unfold Generate.persist Create at *
  cases hC : OpenFile env.umask env.createFault fs certPath 0o666 with
  | error e => simp [hC] at h
  | ok fs1 =>
    obtain ⟨-, -, rfl⟩ := OpenFile_ok hc hC
    cases hW : env.certWriteFault with
    | some f => simp [hC, hW, Write] at h
    | none =>
      have hk1 : Stat ((fs.set certPath (.file (maskPerm 0o666 env.umask) [])).append certPath
          (env.pemEncode ⟨"CERTIFICATE", der⟩)) keyPath = some ENOENT := by
        simpa [Stat, FS.append_other _ _ _ _ hne.symm, FS.set_other _ _ _ _ hne.symm] using hk
      cases hO : OpenFile env.umask env.openKeyFault
          ((fs.set certPath (.file (maskPerm 0o666 env.umask) [])).append certPath
            (env.pemEncode ⟨"CERTIFICATE", der⟩)) keyPath 0o600 with
      | error e => simp [hC, hW, Write, hO] at h
      | ok fs2 =>
        obtain ⟨-, -, rfl⟩ := OpenFile_ok hk1 hO
        cases hB : pemBlockForKey env theKey with
        | error e => simp [hC, hW, Write, hO, hB] at h
        | ok ob =>
          cases ob with
          | none => simp [hC, hW, Write, hO, hB] at h
          | some pemBlock =>
            cases hKW : env.keyWriteFault with
            | some f => simp [hC, hW, Write, hO, hB, hKW] at h
            | none =>
              cases hKC : env.keyCloseFault with
              | some f => simp [hC, hW, Write, hO, hB, hKW, hKC] at h
              | none =>
                simp only [hC, hW, Write, hO, hB, hKW, hKC, Result.ok.injEq] at h ⊢
                refine ⟨pemBlock, rfl, h.symm, ?_, ?_⟩
                · rw [FS.set_append, FS.set_append]
                · simp [persistEvents]

theorem pemBlockForKey_type {env : Env} {key : AnyKey} {b : Block}
    (h : pemBlockForKey env key = .ok (some b)) :
    b.type = "RSA PRIVATE KEY" ∨ b.type = "EC PRIVATE KEY" := by
  unfold pemBlockForKey at h
  split at h
  · simp at h; subst h; simp
  · split at h <;> simp at h
    subst h; simp
  · simp at h

theorem persist_trace (c : SelfSignedCertificateGenerator) (env : Env)
    (request : GenerateRequest) (fs : FS) (tr : List Event) (certPath keyPath : String)
    (theKey : AnyKey) (der : List Nat) :
    ∀ ev ∈ (Generate.persist env fs tr certPath keyPath theKey der).trace,
      ev ∈ tr ∨ lateEvent c env request certPath keyPath ev := by
  intro ev hev
  have hcert : lateEvent c env request certPath keyPath
      (.pemEncode certPath ⟨"CERTIFICATE", der⟩) := by simp [lateEvent]
  have hkey : ∀ b, pemBlockForKey env theKey = .ok (some b) →
      lateEvent c env request certPath keyPath (.pemEncode keyPath b) := by
    intro b hb
    simp [lateEvent, pemBlockForKey_type hb]
  simp only [Generate.persist] at hev
  repeat' split at hev
  all_goals
    simp only [List.mem_append, List.mem_singleton] at hev
    rcases hev with hev | rfl
    repeat' rcases hev with hev | rfl
    all_goals first
      | exact Or.inl hev
      | exact Or.inr hcert
      | exact Or.inr (hkey _ (by assumption))
      | (right; simp [lateEvent])

theorem OpenFile_other {umask : Nat} {fault : Option Errno} {fs fs1 : FS} {name : String}
    {perm : Nat} (h : OpenFile umask fault fs name perm = .ok fs1) (p : String)
    (hp : p ≠ name) : fs1 p = fs p := by
  unfold OpenFile at h
  cases fault with
  | some e => simp at h
  | none =>
    cases ha : fs name <;> simp [ha] at h <;> subst h <;> exact FS.set_other _ _ _ _ hp

theorem Write_other (fault : Option (Errno × Nat)) (fs : FS) (name : String)
    (data : List Nat) (p : String) (hp : p ≠ name) : (Write fault fs name data).1 p = fs p := by
  unfold Write
  cases fault <;> simp [FS.append_other _ _ _ _ hp]

theorem persist_frame (env : Env) (fs : FS) (tr : List Event) (certPath keyPath : String)
    (theKey : AnyKey) (der : List Nat) (p : String) (hc : p ≠ certPath) (hk : p ≠ keyPath) :
    (Generate.persist env fs tr certPath keyPath theKey der).fs p = fs p := by
  simp only [Generate.persist, Create]
  repeat' split
  all_goals try dsimp only
  all_goals try rw [Write_other _ _ _ _ _ hk]
  all_goals try (have h2 : OpenFile _ _ _ keyPath _ = Except.ok _ := (by assumption); rw [OpenFile_other h2 p hk])
  all_goals try rw [Write_other _ _ _ _ _ hc]
  all_goals (have h1 : OpenFile _ _ _ certPath _ = Except.ok _ := (by assumption); rw [OpenFile_other h1 p hc])

/-! ## The issuing phase -/

theorem pemBlockForKey_rsa {env : Env} {key : RSAPrivateKey} {b : Block}
    (h : pemBlockForKey env (.rsaPrivateKey key) = .ok (some b)) :
    b = ⟨"RSA PRIVATE KEY", env.marshalPKCS1PrivateKey key⟩ := by
  simp [pemBlockForKey] at h
  exact h.symm

theorem pemBlockForKey_ecdsa {env : Env} {key : ECDSAPrivateKey} {b : Block}
    (h : pemBlockForKey env (.ecdsaPrivateKey key) = .ok (some b)) :
    ∃ bytes, env.marshalECPrivateKey key = .ok bytes ∧ b = ⟨"EC PRIVATE KEY", bytes⟩ := by
  simp only [pemBlockForKey] at h
  cases hm : env.marshalECPrivateKey key with
  | error e => simp [hm] at h
  | ok bytes =>
    simp [hm] at h
    exact ⟨bytes, rfl, h.symm⟩

theorem issue_ok {c : SelfSignedCertificateGenerator} {env : Env} {fs : FS}
    {tr : List Event} {request : GenerateRequest} {certPath keyPath : String}
    {resp : GenerateResponse} (hne : certPath ≠ keyPath)
    (hc : Stat fs certPath = some ENOENT) (hk : Stat fs keyPath = some ENOENT)
    (h : (Generate.issue c env fs tr request certPath keyPath).result = .ok resp) :
    ∃ events, Issued c env request fs certPath keyPath resp
        (Generate.issue c env fs tr request certPath keyPath).fs events ∧
      (Generate.issue c env fs tr request certPath keyPath).trace = tr ++ events := by
  unfold Generate.issue at h ⊢
  cases hr : env.randInt serialNumberLimit with
  | error e => simp [hr] at h
  | ok serialNumber =>
    cases ha : request.Algorithm with
    | other v => simp [hr, ha] at h
    | RSA =>
      cases hg : env.rsaGenerateKey request.KeySize with
      | error e => simp [hr, ha, hg] at h
      | ok key =>
        cases hs : env.createCertificate (Generate.template c request env.now serialNumber)
            (Generate.template c request env.now serialNumber) (.rsaPublicKey key.PublicKey)
            (.rsaPrivateKey key) with
        | error e => simp [hr, ha, hg, hs] at h
        | ok der =>
          simp only [hr, ha, hg, hs] at h ⊢
          obtain ⟨pemBlock, hb, hresp, hfs, htr⟩ := persist_ok hne hc hk h
          refine ⟨_, ⟨serialNumber, _, _, _, der, pemBlock, hr,
            Or.inl ⟨ha, key, hg, rfl, rfl, rfl, pemBlockForKey_rsa hb⟩, hs, hb, hresp, hfs,
            rfl⟩, ?_⟩
          rw [htr]
          simp
    | ECDSA =>
      cases hd : determineECDSACurve request.KeySize with
      | error e => simp [hr, ha, hd] at h
      | ok curve =>
        cases hg : env.ecdsaGenerateKey curve with
        | error e => simp [hr, ha, hd, hg] at h
        | ok key =>
          cases hs : env.createCertificate (Generate.template c request env.now serialNumber)
              (Generate.template c request env.now serialNumber)
              (.ecdsaPublicKey key.PublicKey) (.ecdsaPrivateKey key) with
          | error e => simp [hr, ha, hd, hg, hs] at h
          | ok der =>
            simp only [hr, ha, hd, hg, hs] at h ⊢
            obtain ⟨pemBlock, hb, hresp, hfs, htr⟩ := persist_ok hne hc hk h
            obtain ⟨bytes, hm, hbe⟩ := pemBlockForKey_ecdsa hb
            refine ⟨_, ⟨serialNumber, _, _, _, der, pemBlock, hr,
              Or.inr ⟨ha, curve, key, bytes, hd, hg, rfl, rfl, rfl, hm, hbe⟩, hs, hb, hresp,
              hfs, rfl⟩, ?_⟩
            rw [htr]
            simp

theorem issue_frame (c : SelfSignedCertificateGenerator) (env : Env) (fs : FS)
    (tr : List Event) (request : GenerateRequest) (certPath keyPath : String) (p : String)
    (hc : p ≠ certPath) (hk : p ≠ keyPath) :
    (Generate.issue c env fs tr request certPath keyPath).fs p = fs p := by
  simp only [Generate.issue]
  repeat' split
  all_goals first
    | rfl
    | exact persist_frame _ _ _ _ _ _ _ _ hc hk

theorem issue_trace (c : SelfSignedCertificateGenerator) (env : Env) (fs : FS)
    (tr : List Event) (request : GenerateRequest) (certPath keyPath : String) :
    ∀ ev ∈ (Generate.issue c env fs tr request certPath keyPath).trace,
      ev ∈ tr ∨ lateEvent c env request certPath keyPath ev := by
  intro ev hev
  have hrand : lateEvent c env request certPath keyPath (.randInt serialNumberLimit) := rfl
  unfold Generate.issue at hev
  cases hr : env.randInt serialNumberLimit with
  | error e =>
    simp only [hr, List.mem_append, List.mem_singleton] at hev
    rcases hev with hev | rfl
    exacts [Or.inl hev, Or.inr hrand]
  | ok serialNumber =>
    cases ha : request.Algorithm with
    | other v =>
      simp only [hr, ha, List.mem_append, List.mem_singleton] at hev
      rcases hev with hev | rfl
      exacts [Or.inl hev, Or.inr hrand]
    | RSA =>
      have hgen : lateEvent c env request certPath keyPath (.rsaGenerateKey request.KeySize) :=
        ⟨ha, rfl⟩
      cases hg : env.rsaGenerateKey request.KeySize with
      | error e =>
        simp only [hr, ha, hg, List.mem_append, List.mem_singleton, or_assoc] at hev
        rcases hev with hev | rfl | rfl
        exacts [Or.inl hev, Or.inr hrand, Or.inr hgen]
      | ok key =>
        have hsign : lateEvent c env request certPath keyPath
            (.createCertificate (Generate.template c request env.now serialNumber)
              (Generate.template c request env.now serialNumber)
              (.rsaPublicKey key.PublicKey) (.rsaPrivateKey key)) :=
          ⟨rfl, ⟨serialNumber, hr, rfl⟩, Or.inl ⟨key, hg, rfl, rfl⟩⟩
        have hpre : ∀ ev ∈ tr ++ [Event.randInt serialNumberLimit] ++
            [.rsaGenerateKey request.KeySize] ++
            [.createCertificate (Generate.template c request env.now serialNumber)
              (Generate.template c request env.now serialNumber)
              (.rsaPublicKey key.PublicKey) (.rsaPrivateKey key)],
            ev ∈ tr ∨ lateEvent c env request certPath keyPath ev := by
          intro ev hev
          simp only [List.mem_append, List.mem_singleton, or_assoc] at hev
          rcases hev with hev | rfl | rfl | rfl
          exacts [Or.inl hev, Or.inr hrand, Or.inr hgen, Or.inr hsign]
        cases hs : env.createCertificate (Generate.template c request env.now serialNumber)
            (Generate.template c request env.now serialNumber) (.rsaPublicKey key.PublicKey)
            (.rsaPrivateKey key) with
        | error e =>
          simp only [hr, ha, hg, hs] at hev
          exact hpre ev hev
        | ok der =>
          simp only [hr, ha, hg, hs] at hev
          rcases persist_trace c env request _ _ _ _ _ _ ev hev with h1 | h1
          exacts [hpre ev h1, Or.inr h1]
    | ECDSA =>
      cases hd : determineECDSACurve request.KeySize with
      | error e =>
        simp only [hr, ha, hd, List.mem_append, List.mem_singleton] at hev
        rcases hev with hev | rfl
        exacts [Or.inl hev, Or.inr hrand]
      | ok curve =>
        have hgen : lateEvent c env request certPath keyPath (.ecdsaGenerateKey curve) :=
          ⟨ha, hd⟩
        cases hg : env.ecdsaGenerateKey curve with
        | error e =>
          simp only [hr, ha, hd, hg, List.mem_append, List.mem_singleton, or_assoc] at hev
          rcases hev with hev | rfl | rfl
          exacts [Or.inl hev, Or.inr hrand, Or.inr hgen]
        | ok key =>
          have hsign : lateEvent c env request certPath keyPath
              (.createCertificate (Generate.template c request env.now serialNumber)
                (Generate.template c request env.now serialNumber)
                (.ecdsaPublicKey key.PublicKey) (.ecdsaPrivateKey key)) :=
            ⟨rfl, ⟨serialNumber, hr, rfl⟩, Or.inr ⟨curve, key, hd, hg, rfl, rfl⟩⟩
          have hpre : ∀ ev ∈ tr ++ [Event.randInt serialNumberLimit] ++
              [.ecdsaGenerateKey curve] ++
              [.createCertificate (Generate.template c request env.now serialNumber)
                (Generate.template c request env.now serialNumber)
                (.ecdsaPublicKey key.PublicKey) (.ecdsaPrivateKey key)],
              ev ∈ tr ∨ lateEvent c env request certPath keyPath ev := by
            intro ev hev
            simp only [List.mem_append, List.mem_singleton, or_assoc] at hev
            rcases hev with hev | rfl | rfl | rfl
            exacts [Or.inl hev, Or.inr hrand, Or.inr hgen, Or.inr hsign]
          cases hs : env.createCertificate (Generate.template c request env.now serialNumber)
              (Generate.template c request env.now serialNumber)
              (.ecdsaPublicKey key.PublicKey) (.ecdsaPrivateKey key) with
          | error e =>
            simp only [hr, ha, hd, hg, hs] at hev
            exact hpre ev hev
          | ok der =>
            simp only [hr, ha, hd, hg, hs] at hev
            rcases persist_trace c env request _ _ _ _ _ _ ev hev with h1 | h1
            exacts [hpre ev h1, Or.inr h1]

/-- Before the persistence phase nothing is written: whenever the issuing phase stops
on the algorithm or the key size, the filesystem is the one it was given. -/
theorem issue_unsupported (c : SelfSignedCertificateGenerator) (env : Env) (fs : FS)
    (tr : List Event) (request : GenerateRequest) (certPath keyPath : String)
    (h : request.Algorithm ≠ .RSA ∧
      (request.Algorithm = .ECDSA → ∀ curve, determineECDSACurve request.KeySize ≠ .ok curve)) :
    (Generate.issue c env fs tr request certPath keyPath).fs = fs ∧
    (Generate.issue c env fs tr request certPath keyPath).trace = tr ++ [.randInt serialNumberLimit] ∧
    (∃ err, (Generate.issue c env fs tr request certPath keyPath).result = .error err) ∧
    (∀ serialNumber, env.randInt serialNumberLimit = .ok serialNumber →
      (Generate.issue c env fs tr request certPath keyPath).result =
        match request.Algorithm with
        | .ECDSA => .error .InvalidKeySizeError
        | _ => .error (.errorString "unsupported algorithm")) := by
  obtain ⟨hrsa, hec⟩ := h
  unfold Generate.issue
  cases hr : env.randInt serialNumberLimit with
  | error e => simp
  | ok serialNumber =>
    cases ha : request.Algorithm with
    | other v => simp
    | RSA => exact absurd ha hrsa
    | ECDSA =>
      cases hd : determineECDSACurve request.KeySize with
      | ok curve => exact absurd hd (hec ha curve)
      | error e =>
        have he : e = .InvalidKeySizeError := by
          unfold determineECDSACurve at hd
          repeat' split at hd
          all_goals simp at hd
          exact hd.symm
        simp [he]

/-! ## The existence guard and the directory ensure -/

/-- The guard either stops with the filesystem untouched, or hands over to the issuing
phase having seen neither artifact. -/
theorem guard_cases (c : SelfSignedCertificateGenerator) (env : Env) (fs : FS)
    (tr : List Event) (request : GenerateRequest) (base : String) :
    (Stat fs (Generate.certPath base request) = some ENOENT ∧
      Stat fs (Generate.keyPath base request) = some ENOENT ∧
      Generate.guard c env fs tr request base =
        Generate.issue c env fs
          (tr ++ [.stat (Generate.certPath base request)] ++
            [.stat (Generate.keyPath base request)])
          request (Generate.certPath base request) (Generate.keyPath base request)) ∨
    ((Generate.guard c env fs tr request base).fs = fs ∧
      (∃ err, (Generate.guard c env fs tr request base).result = .error err) ∧
      ((Generate.guard c env fs tr request base).trace =
          tr ++ [.stat (Generate.certPath base request)] ∨
       (Generate.guard c env fs tr request base).trace =
          tr ++ [.stat (Generate.certPath base request)] ++
            [.stat (Generate.keyPath base request)])) := by
  simp only [Generate.guard]
  cases hc : Stat fs (Generate.certPath base request) with
  | none => right; simp
  | some e1 =>
    by_cases h1 : e1 = ENOENT
    · subst h1
      cases hk : Stat fs (Generate.keyPath base request) with
      | none => right; simp
      | some e2 =>
        by_cases h2 : e2 = ENOENT
        · subst h2
          left; simp
        · right; simp [h2]
    · right; simp [h1]

/-- The directory ensure either stops with the filesystem untouched, or hands over to
the guard. -/
theorem Generate_cases (c : SelfSignedCertificateGenerator) (env : Env) (fs : FS)
    (request : GenerateRequest) :
    (∃ fs1 pre, Ensured env fs (Generate.certBasePath c) fs1 pre ∧
      Generate c env fs request =
        Generate.guard c env fs1 pre request (Generate.certBasePath c)) ∨
    ((Generate c env fs request).fs = fs ∧
      (∃ op errno, (Generate c env fs request).result =
        .error (.PathError op (Generate.certBasePath c) errno)) ∧
      ∀ ev ∈ (Generate c env fs request).trace,
        ev = .stat (Generate.certBasePath c) ∨
        (ev = .mkdir (Generate.certBasePath c) 0o740 ∧
          Stat fs (Generate.certBasePath c) = some ENOENT)) := by
  simp only [Generate]
  cases hs : Stat fs (Generate.certBasePath c) with
  | none => exact Or.inl ⟨fs, _, Or.inl ⟨hs, rfl, rfl⟩, by simp⟩
  | some e1 =>
    by_cases h1 : e1 = ENOENT
    · subst h1
      cases hm : Mkdir env.umask env.superuser env.mkdirFault fs (Generate.certBasePath c)
          0o740 with
      | error e => right; simp [hm]
      | ok fs1 =>
        obtain ⟨hf, ha, rfl⟩ := Mkdir_ok hm
        exact Or.inl ⟨_, _, Or.inr ⟨hs, hf, ha, rfl, rfl⟩, by simp [hm]⟩
    · right; simp [h1]

theorem Ensured_stat_base {env : Env} {fs fs1 : FS} {base : String} {pre : List Event}
    (h : Ensured env fs base fs1 pre) : Stat fs1 base = none := by
  rcases h with ⟨h, rfl, -⟩ | ⟨-, -, -, rfl, -⟩
  · exact h
  · simp [Stat, FS.mkdir_same]

theorem persist_ok_absent {env : Env} {fs : FS} {tr : List Event} {certPath keyPath : String}
    {theKey : AnyKey} {der : List Nat} {resp : GenerateResponse}
    (hc : Stat fs certPath = some ENOENT)
    (h : (Generate.persist env fs tr certPath keyPath theKey der).result = .ok resp) :
    fs certPath = .absent := by
  unfold Generate.persist Create at h
  cases hC : OpenFile env.umask env.createFault fs certPath 0o666 with
  | error e => simp [hC] at h
  | ok fs1 => exact (OpenFile_ok hc hC).2.1

theorem issue_ok_absent {c : SelfSignedCertificateGenerator} {env : Env} {fs : FS}
    {tr : List Event} {request : GenerateRequest} {certPath keyPath : String}
    {resp : GenerateResponse} (hc : Stat fs certPath = some ENOENT)
    (h : (Generate.issue c env fs tr request certPath keyPath).result = .ok resp) :
    fs certPath = .absent := by
  simp only [Generate.issue] at h
  repeat' split at h
  all_goals first
    | exact persist_ok_absent hc h
    | cases h

/-- Where the directory ensure has passed and the certificate path then holds nothing,
the filesystem differs from the one before at most at the directory itself. -/
theorem Ensured_frame {env : Env} {fs fs1 : FS} {base : String} {pre : List Event}
    (h : Ensured env fs base fs1 pre) (request : GenerateRequest)
    (ha : fs1 (Generate.certPath base request) = .absent) (p : String) (hp : p ≠ base) :
    fs1 p = fs p := by
  rcases h with ⟨-, rfl, -⟩ | ⟨-, -, -, rfl, -⟩
  · rfl
  · have hs := FS.mkdir_absent (under_join base _) ha
    rw [FS.mkdir_searchable hs, FS.set_other _ _ _ _ hp]

/-- A successful run: the directory ensure passed, neither artifact was there, and the
issuing and persistence phases ran to the end. -/
theorem Generate_ok {c : SelfSignedCertificateGenerator} {env : Env} {fs : FS}
    {request : GenerateRequest} {resp : GenerateResponse}
    (h : (Generate c env fs request).result = .ok resp) :
    ∃ fs1 pre events, Ensured env fs (Generate.certBasePath c) fs1 pre ∧
      Stat fs1 (Generate.certPath (Generate.certBasePath c) request) = some ENOENT ∧
      Stat fs1 (Generate.keyPath (Generate.certBasePath c) request) = some ENOENT ∧
      Issued c env request fs1 (Generate.certPath (Generate.certBasePath c) request)
        (Generate.keyPath (Generate.certBasePath c) request) resp
        (Generate c env fs request).fs events ∧
      (Generate c env fs request).trace =
        pre ++ [.stat (Generate.certPath (Generate.certBasePath c) request)] ++
          [.stat (Generate.keyPath (Generate.certBasePath c) request)] ++ events ∧
      ∀ p, p ≠ Generate.certBasePath c → fs1 p = fs p := by
  rcases Generate_cases c env fs request with ⟨fs1, pre, he, hg⟩ | ⟨-, ⟨op, errno, hr⟩, -⟩
  · rw [hg] at h ⊢
    rcases guard_cases c env fs1 pre request (Generate.certBasePath c) with
      ⟨hc, hk, hi⟩ | ⟨-, ⟨err, hr⟩, -⟩
    · rw [hi] at h ⊢
      obtain ⟨events, hiss, htr⟩ := issue_ok (certPath_ne_keyPath _ _) hc hk h
      exact ⟨fs1, pre, events, he, hc, hk, hiss, htr,
        Ensured_frame he request (issue_ok_absent hc h)⟩
    · rw [hr] at h; cases h
  · rw [hr] at h; cases h

/-- Every call a run makes: the `stat` of the directory, its `mkdir` when that `stat`
found nothing, and after these only the calls of the later phases. -/
theorem Generate_trace (c : SelfSignedCertificateGenerator) (env : Env) (fs : FS)
    (request : GenerateRequest) :
    ∀ ev ∈ (Generate c env fs request).trace,
      ev = .stat (Generate.certBasePath c) ∨
      (ev = .mkdir (Generate.certBasePath c) 0o740 ∧
        Stat fs (Generate.certBasePath c) = some ENOENT) ∨
      lateEvent c env request (Generate.certPath (Generate.certBasePath c) request)
        (Generate.keyPath (Generate.certBasePath c) request) ev := by
  intro ev hev
  have hpre : ∀ fs1 pre, Ensured env fs (Generate.certBasePath c) fs1 pre → ev ∈ pre →
      ev = .stat (Generate.certBasePath c) ∨
      (ev = .mkdir (Generate.certBasePath c) 0o740 ∧
        Stat fs (Generate.certBasePath c) = some ENOENT) := by
    intro fs1 pre he hin
    rcases he with ⟨-, -, rfl⟩ | ⟨hs, -, -, -, rfl⟩
    · simp at hin; exact Or.inl hin
    · simp at hin
      rcases hin with rfl | rfl
      exacts [Or.inl rfl, Or.inr ⟨rfl, hs⟩]
  have hstat1 : lateEvent c env request (Generate.certPath (Generate.certBasePath c) request)
      (Generate.keyPath (Generate.certBasePath c) request)
      (.stat (Generate.certPath (Generate.certBasePath c) request)) := Or.inl rfl
  have hstat2 : lateEvent c env request (Generate.certPath (Generate.certBasePath c) request)
      (Generate.keyPath (Generate.certBasePath c) request)
      (.stat (Generate.keyPath (Generate.certBasePath c) request)) := Or.inr rfl
  rcases Generate_cases c env fs request with ⟨fs1, pre, he, hg⟩ | ⟨-, -, htr⟩
  · rw [hg] at hev
    rcases guard_cases c env fs1 pre request (Generate.certBasePath c) with
      ⟨-, -, hi⟩ | ⟨-, -, htr | htr⟩
    · rw [hi] at hev
      rcases issue_trace c env fs1 _ request _ _ ev hev with h1 | h1
      · simp only [List.mem_append, List.mem_singleton, or_assoc] at h1
        rcases h1 with h1 | rfl | rfl
        · rcases hpre fs1 pre he h1 with h2 | h2
          exacts [Or.inl h2, Or.inr (Or.inl h2)]
        · exact Or.inr (Or.inr hstat1)
        · exact Or.inr (Or.inr hstat2)
      · exact Or.inr (Or.inr h1)
    · rw [htr] at hev
      simp only [List.mem_append, List.mem_singleton] at hev
      rcases hev with h1 | rfl
      · rcases hpre fs1 pre he h1 with h2 | h2
        exacts [Or.inl h2, Or.inr (Or.inl h2)]
      · exact Or.inr (Or.inr hstat1)
    · rw [htr] at hev
      simp only [List.mem_append, List.mem_singleton, or_assoc] at hev
      rcases hev with h1 | rfl | rfl
      · rcases hpre fs1 pre he h1 with h2 | h2
        exacts [Or.inl h2, Or.inr (Or.inl h2)]
      · exact Or.inr (Or.inr hstat1)
      · exact Or.inr (Or.inr hstat2)
  · rcases htr ev hev with h1 | h1
    exacts [Or.inl h1, Or.inr (Or.inl h1)]

/-! ## Direct evaluation of the first two phases -/

theorem Generate_of_dir {c : SelfSignedCertificateGenerator} {fs : FS}
    (h : Stat fs (Generate.certBasePath c) = none) (env : Env) (request : GenerateRequest) :
    Generate c env fs request =
      Generate.guard c env fs [.stat (Generate.certBasePath c)] request
        (Generate.certBasePath c) := by
  simp [Generate, h]

theorem Generate_of_absent {c : SelfSignedCertificateGenerator} {env : Env} {fs : FS}
    (h : fs (Generate.certBasePath c) = .absent) (hm : env.mkdirFault = none)
    (request : GenerateRequest) :
    Generate c env fs request =
      Generate.guard c env
        (fs.mkdir env.superuser (Generate.certBasePath c) (maskPerm 0o740 env.umask))
        [.stat (Generate.certBasePath c), .mkdir (Generate.certBasePath c) 0o740] request
        (Generate.certBasePath c) := by
  simp [Generate, Stat, Mkdir, h, hm]

theorem guard_of_cert (c : SelfSignedCertificateGenerator) (env : Env) {fs : FS}
    (tr : List Event) (request : GenerateRequest) (base : String)
    (h : Stat fs (Generate.certPath base request) = none) :
    Generate.guard c env fs tr request base =
      ⟨.error (.CertificateExistsErr request.CommonName), fs,
        tr ++ [.stat (Generate.certPath base request)]⟩ := by
  simp [Generate.guard, h]

theorem guard_of_key (c : SelfSignedCertificateGenerator) (env : Env) {fs : FS}
    (tr : List Event) (request : GenerateRequest) (base : String)
    (hc : Stat fs (Generate.certPath base request) = some ENOENT)
    (hk : Stat fs (Generate.keyPath base request) = none) :
    Generate.guard c env fs tr request base =
      ⟨.error (.KeyExistsErr request.CommonName), fs,
        tr ++ [.stat (Generate.certPath base request)] ++
          [.stat (Generate.keyPath base request)]⟩ := by
  simp [Generate.guard, hc, hk]

theorem persist_extends (env : Env) (fs : FS) (tr : List Event) (certPath keyPath : String)
    (theKey : AnyKey) (der : List Nat) :
    tr <+: (Generate.persist env fs tr certPath keyPath theKey der).trace := by
  simp only [Generate.persist]
  repeat' split
  all_goals simp [List.append_assoc]

theorem issue_extends (c : SelfSignedCertificateGenerator) (env : Env) (fs : FS)
    (tr : List Event) (request : GenerateRequest) (certPath keyPath : String) :
    tr <+: (Generate.issue c env fs tr request certPath keyPath).trace := by
  simp only [Generate.issue]
  repeat' split
  all_goals
    try simp only [List.append_assoc]
    first
      | exact List.IsPrefix.trans (List.prefix_append tr _) (persist_extends _ _ _ _ _ _ _)
      | simp

theorem guard_extends (c : SelfSignedCertificateGenerator) (env : Env) (fs : FS)
    (tr : List Event) (request : GenerateRequest) (base : String) :
    tr ++ [.stat (Generate.certPath base request)] <+:
      (Generate.guard c env fs tr request base).trace := by
  rcases guard_cases c env fs tr request base with ⟨-, -, hi⟩ | ⟨-, -, h | h⟩
  · rw [hi]
    exact List.IsPrefix.trans (by simp) (issue_extends _ _ _ _ _ _ _)
  · rw [h]
  · rw [h]; exact List.prefix_append _ _

/-! ## Trailing separators -/

theorem TrimRight_data (s : String) :
    (TrimRight s PathSeparatorString).data =
      s.data.rdropWhile (fun ch => decide (ch = '/')) := by
  simp [TrimRight, PathSeparatorString, PathSeparator, String.singleton]

theorem rdropWhile_trailing (l : List Char) :
    ∃ n, l = l.rdropWhile (fun ch => decide (ch = '/')) ++ List.replicate n '/' := by
  induction l using List.reverseRecOn with
  | nil => exact ⟨0, rfl⟩
  | append_singleton l a ih =>
    by_cases ha : a = '/'
    · subst ha
      obtain ⟨n, hn⟩ := ih
      refine ⟨n + 1, ?_⟩
      rw [List.rdropWhile_concat_pos _ _ _ (by simp)]
      conv_lhs => rw [hn]
      simp [List.replicate_succ']
    · refine ⟨0, ?_⟩
      rw [List.rdropWhile_concat_neg _ _ _ (by simpa using ha)]
      simp

theorem rdropWhile_no_trailing (l m : List Char) :
    l.rdropWhile (fun ch => decide (ch = '/')) ≠ m ++ ['/'] := by
  intro h
  have hne : l.rdropWhile (fun ch => decide (ch = '/')) ≠ [] := by simp [h]
  have := List.rdropWhile_last_not (fun ch => decide (ch = '/')) l hne
  simp [h] at this

theorem certBasePath_trailing (c : SelfSignedCertificateGenerator) :
    ∃ n, c.CertificateBasePath = Generate.certBasePath c ++ ⟨List.replicate n '/'⟩ := by
  obtain ⟨n, hn⟩ := rdropWhile_trailing c.CertificateBasePath.data
  refine ⟨n, ?_⟩
  apply String.ext
  rw [String.data_append, Generate.certBasePath, TrimRight_data]
  exact hn

theorem certBasePath_no_trailing (c : SelfSignedCertificateGenerator) (s : String) :
    Generate.certBasePath c ≠ s ++ "/" := by
  intro h
  have := congrArg String.data h
  rw [Generate.certBasePath, TrimRight_data, String.data_append] at this
  exact rdropWhile_no_trailing _ _ this

/-! ## Runs that stop on the algorithm or the key size -/

theorem guard_to_issue (c : SelfSignedCertificateGenerator) (env : Env) {fs : FS}
    (tr : List Event) (request : GenerateRequest) (base : String)
    (hc : Stat fs (Generate.certPath base request) = some ENOENT)
    (hk : Stat fs (Generate.keyPath base request) = some ENOENT) :
    Generate.guard c env fs tr request base =
      Generate.issue c env fs
        (tr ++ [.stat (Generate.certPath base request)] ++
          [.stat (Generate.keyPath base request)])
        request (Generate.certPath base request) (Generate.keyPath base request) := by
  simp [Generate.guard, hc, hk]

/-- A request that names no supported algorithm, or ECDSA with a size that names no
curve: the run fails, the only change it can make is creating the directory, and the
only calls it makes are the three `stat`s, the `mkdir` and the serial-number draw. -/
theorem Generate_unsupported (c : SelfSignedCertificateGenerator) (env : Env) (fs : FS)
    (request : GenerateRequest)
    (h : request.Algorithm ≠ .RSA ∧
      (request.Algorithm = .ECDSA → ∀ curve, determineECDSACurve request.KeySize ≠ .ok curve)) :
    (∃ err, (Generate c env fs request).result = .error err) ∧
    ((Generate c env fs request).fs = fs ∨
      (fs (Generate.certBasePath c) = .absent ∧ env.mkdirFault = none ∧
        (Generate c env fs request).fs =
          fs.mkdir env.superuser (Generate.certBasePath c) (maskPerm 0o740 env.umask))) ∧
    (∀ ev ∈ (Generate c env fs request).trace,
      ev = .stat (Generate.certBasePath c) ∨ ev = .mkdir (Generate.certBasePath c) 0o740 ∨
      ev = .stat (Generate.certPath (Generate.certBasePath c) request) ∨
      ev = .stat (Generate.keyPath (Generate.certBasePath c) request) ∨
      ev = .randInt serialNumberLimit) := by
  rcases Generate_cases c env fs request with ⟨fs1, pre, he, hg⟩ | ⟨hfs, ⟨op, errno, hr⟩, htr⟩
  · have hfs1 : fs1 = fs ∨ (fs (Generate.certBasePath c) = .absent ∧ env.mkdirFault = none ∧
        fs1 = fs.mkdir env.superuser (Generate.certBasePath c)
          (maskPerm 0o740 env.umask)) := by
      rcases he with ⟨-, rfl, -⟩ | ⟨-, hm, ha, rfl, -⟩
      exacts [Or.inl rfl, Or.inr ⟨ha, hm, rfl⟩]
    have hpre : ∀ ev ∈ pre, ev = .stat (Generate.certBasePath c) ∨
        ev = .mkdir (Generate.certBasePath c) 0o740 := by
      intro ev hev
      rcases he with ⟨-, -, rfl⟩ | ⟨-, -, -, -, rfl⟩ <;> simp at hev
      · exact Or.inl hev
      · exact hev
    rw [hg]
    rcases guard_cases c env fs1 pre request (Generate.certBasePath c) with
      ⟨-, -, hi⟩ | ⟨hfs, herr, htr⟩
    · rw [hi]
      obtain ⟨h1, h2, h3, -⟩ := issue_unsupported c env fs1
        (pre ++ [.stat (Generate.certPath (Generate.certBasePath c) request)] ++
          [.stat (Generate.keyPath (Generate.certBasePath c) request)]) request
        (Generate.certPath (Generate.certBasePath c) request)
        (Generate.keyPath (Generate.certBasePath c) request) h
      refine ⟨h3, by rw [h1]; exact hfs1, ?_⟩
      intro ev hev
      rw [h2] at hev
      simp only [List.mem_append, List.mem_singleton, or_assoc] at hev
      rcases hev with hev | hev | hev | hev
      · rcases hpre ev hev with h4 | h4
        exacts [Or.inl h4, Or.inr (Or.inl h4)]
      · exact Or.inr (Or.inr (Or.inl hev))
      · exact Or.inr (Or.inr (Or.inr (Or.inl hev)))
      · exact Or.inr (Or.inr (Or.inr (Or.inr hev)))
    · refine ⟨herr, by rw [hfs]; exact hfs1, ?_⟩
      intro ev hev
      rcases htr with htr | htr <;> rw [htr] at hev <;>
        simp only [List.mem_append, List.mem_singleton, or_assoc] at hev
      · rcases hev with hev | hev
        · rcases hpre ev hev with h4 | h4
          exacts [Or.inl h4, Or.inr (Or.inl h4)]
        · exact Or.inr (Or.inr (Or.inl hev))
      · rcases hev with hev | hev | hev
        · rcases hpre ev hev with h4 | h4
          exacts [Or.inl h4, Or.inr (Or.inl h4)]
        · exact Or.inr (Or.inr (Or.inl hev))
        · exact Or.inr (Or.inr (Or.inr (Or.inl hev)))
  · refine ⟨⟨_, hr⟩, Or.inl hfs, ?_⟩
    intro ev hev
    rcases htr ev hev with h4 | ⟨h4, -⟩
    exacts [Or.inl h4, Or.inr (Or.inl h4)]

theorem Generate_of_mkdir {c : SelfSignedCertificateGenerator} {env : Env} {fs fs1 : FS}
    (hs : Stat fs (Generate.certBasePath c) = some ENOENT)
    (hm : Mkdir env.umask env.superuser env.mkdirFault fs (Generate.certBasePath c) 0o740 =
      .ok fs1) (request : GenerateRequest) :
    Generate c env fs request =
      Generate.guard c env fs1
        [.stat (Generate.certBasePath c), .mkdir (Generate.certBasePath c) 0o740] request
        (Generate.certBasePath c) := by
  simp [Generate, hs, hm]

/-- The same runs, when every call made before the algorithm switch answers so that the
switch is reached: the error is the one of the switch. The two existence checks are made
on `fs1`, the filesystem after the directory ensure. -/
theorem Generate_unsupported_error (c : SelfSignedCertificateGenerator) (env : Env)
    (fs fs1 : FS) (request : GenerateRequest)
    (h : request.Algorithm ≠ .RSA ∧
      (request.Algorithm = .ECDSA → ∀ curve, determineECDSACurve request.KeySize ≠ .ok curve))
    (hdir : (Stat fs (Generate.certBasePath c) = none ∧ fs1 = fs) ∨
      (Stat fs (Generate.certBasePath c) = some ENOENT ∧
        Mkdir env.umask env.superuser env.mkdirFault fs (Generate.certBasePath c) 0o740 =
          .ok fs1))
    (hc : Stat fs1 (Generate.certPath (Generate.certBasePath c) request) = some ENOENT)
    (hk : Stat fs1 (Generate.keyPath (Generate.certBasePath c) request) = some ENOENT)
    (serialNumber : Nat) (hr : env.randInt serialNumberLimit = .ok serialNumber) :
    (Generate c env fs request).result =
      match request.Algorithm with
      | .ECDSA => .error .InvalidKeySizeError
      | _ => .error (.errorString "unsupported algorithm") := by
  rcases hdir with ⟨hdir, rfl⟩ | ⟨hs, hm⟩
  · rw [Generate_of_dir hdir, guard_to_issue _ _ _ _ _ hc hk]
    exact (issue_unsupported c env fs1 _ request _ _ h).2.2.2 serialNumber hr
  · rw [Generate_of_mkdir hs hm, guard_to_issue _ _ _ _ _ hc hk]
    exact (issue_unsupported c env _ _ request _ _ h).2.2.2 serialNumber hr

/-- A directory created without the owner search bit by a process that is not the
superuser: the check of the certificate path fails with `EACCES`, whatever the request. -/
theorem Generate_unsearchable (c : SelfSignedCertificateGenerator) (env : Env) (fs : FS)
    (request : GenerateRequest) (ha : fs (Generate.certBasePath c) = .absent)
    (hm : env.mkdirFault = none)
    (hs : (env.superuser || ownerSearch (maskPerm 0o740 env.umask)) = false)
    (hc : fs (Generate.certPath (Generate.certBasePath c) request) = .absent) :
    (Generate c env fs request).result =
      .error (.PathError "stat" (Generate.certPath (Generate.certBasePath c) request)
        EACCES) := by
  have hstat : Stat (fs.mkdir env.superuser (Generate.certBasePath c)
      (maskPerm 0o740 env.umask))
      (Generate.certPath (Generate.certBasePath c) request) = some EACCES := by
    simp only [Bool.or_eq_false_iff] at hs
    have hu : under (Generate.certBasePath c)
        (Generate.certPath (Generate.certBasePath c) request) = true := under_join _ _
    simp [Stat, FS.mkdir, certPath_ne_base, hs.1, hs.2, hc, hu]
  rw [Generate_of_absent ha hm]
  simp [Generate.guard, hstat, EACCES, ENOENT]

/-- Under the umask `0177` the directory is created with mode `0600`; the run then stops
at the check of the certificate path with `EACCES`, unless the process is the superuser,
for whom the run goes on to the key-size check. -/
theorem Generate_tight_umask :
    (Generate demoGenerator tightEnv rootFS badCurveRequest).result =
      .error (.PathError "stat" "/certs/svc.internal.pem" EACCES) ∧
    (Generate demoGenerator tightEnv rootFS badCurveRequest).fs "/certs" = .dir 0o600 ∧
    (Generate demoGenerator tightEnv rootFS otherRequest).result =
      .error (.PathError "stat" "/certs/svc.internal.pem" EACCES) ∧
    (Generate demoGenerator tightSuperuserEnv rootFS badCurveRequest).result =
      .error .InvalidKeySizeError := by
  decide

/-- Creating a directory neither adds, removes nor changes a file. -/
theorem file_iff_of_mkdir {superuser : Bool} {fs fs1 : FS} {base : String} {mode : Nat}
    (h : fs1 = fs ∨ (fs base = .absent ∧ fs1 = fs.mkdir superuser base mode)) (p : String)
    (m : Nat) (content : List Nat) :
    fs1 p = .file m content ↔ fs p = .file m content := by
  rcases h with rfl | ⟨ha, rfl⟩
  · rfl
  · exact FS.mkdir_file_iff ha p m content

/-! ## What the later phases leave at a path -/

theorem guard_frame (c : SelfSignedCertificateGenerator) (env : Env) (fs : FS)
    (tr : List Event) (request : GenerateRequest) (base : String) (p : String)
    (hc : p ≠ Generate.certPath base request) (hk : p ≠ Generate.keyPath base request) :
    (Generate.guard c env fs tr request base).fs p = fs p := by
  rcases guard_cases c env fs tr request base with ⟨-, -, hi⟩ | ⟨hfs, -, -⟩
  · rw [hi]; exact issue_frame _ _ _ _ _ _ _ _ hc hk
  · rw [hfs]

theorem SameOrFile.refl (fs : FS) : SameOrFile fs fs := fun _ => Or.inl rfl

theorem SameOrFile.trans {fs fs1 fs2 : FS} (h1 : SameOrFile fs fs1) (h2 : SameOrFile fs1 fs2) :
    SameOrFile fs fs2 := by
  intro p
  rcases h2 p with h | h
  · rw [h]; exact h1 p
  · exact Or.inr h

theorem OpenFile_entry {umask : Nat} {fault : Option Errno} {fs fs1 : FS} {name : String}
    {perm : Nat} (h : OpenFile umask fault fs name perm = .ok fs1) : SameOrFile fs fs1 := by
  intro p
  by_cases hp : p = name
  · right
    subst hp
    unfold OpenFile at h
    cases fault with
    | some e => simp at h
    | none =>
      cases ha : fs p <;> simp [ha] at h <;> subst h <;> simp [FS.set_same]
  · exact Or.inl (OpenFile_other h p hp)

theorem Write_entry (fault : Option (Errno × Nat)) (fs : FS) (name : String)
    (data : List Nat) : SameOrFile fs (Write fault fs name data).1 := by
  intro p
  by_cases hp : p = name
  · subst hp
    cases ha : fs p with
    | file mode content =>
      right
      cases fault <;> simp [Write, FS.append, ha, FS.set_same]
    | absent => left; cases fault <;> simp [Write, FS.append, ha]
    | fault e => left; cases fault <;> simp [Write, FS.append, ha]
    | dir mode => left; cases fault <;> simp [Write, FS.append, ha]
  · exact Or.inl (Write_other _ _ _ _ _ hp)

theorem persist_entry (env : Env) (fs : FS) (tr : List Event) (certPath keyPath : String)
    (theKey : AnyKey) (der : List Nat) :
    SameOrFile fs (Generate.persist env fs tr certPath keyPath theKey der).fs := by
  simp only [Generate.persist, Create]
  cases hC : OpenFile env.umask env.createFault fs certPath 0o666 with
  | error e => exact SameOrFile.refl fs
  | ok fsA =>
    have h1 := (OpenFile_entry hC).trans
      (Write_entry env.certWriteFault fsA certPath (env.pemEncode ⟨"CERTIFICATE", der⟩))
    cases hO : OpenFile env.umask env.openKeyFault
        (Write env.certWriteFault fsA certPath (env.pemEncode ⟨"CERTIFICATE", der⟩)).1
        keyPath 0o600 with
    | error e =>
      dsimp only
      split
      · exact h1
      · simp only [hO]; exact h1
    | ok fsB =>
      have h2 := h1.trans (OpenFile_entry hO)
      dsimp only
      split
      · exact h1
      · simp only [hO]
        split
        · exact h2
        · exact h2
        · have h3 := fun b => h2.trans (Write_entry env.keyWriteFault fsB keyPath b)
          split
          · exact h3 _
          · split <;> exact h3 _

theorem guard_entry (c : SelfSignedCertificateGenerator) (env : Env) (fs : FS)
    (tr : List Event) (request : GenerateRequest) (base : String) :
    SameOrFile fs (Generate.guard c env fs tr request base).fs := by
  rcases guard_cases c env fs tr request base with ⟨-, -, hi⟩ | ⟨hfs, -, -⟩
  · rw [hi]
    simp only [Generate.issue]
    repeat' split
    all_goals first
      | exact SameOrFile.refl fs
      | exact persist_entry _ _ _ _ _ _ _
  · rw [hfs]; exact SameOrFile.refl fs

/-! ## Absolute paths -/

theorem IsAbs_join (c : SelfSignedCertificateGenerator) (name : String)
    (h : IsAbs c.CertificateBasePath = true) :
    IsAbs (Generate.certBasePath c ++ "/" ++ name) = true := by
  have hpre : (Generate.certBasePath c).data <+: c.CertificateBasePath.data := by
    rw [Generate.certBasePath, TrimRight_data]
    exact List.rdropWhile_prefix _ _
  obtain ⟨t, ht⟩ := hpre
  cases hd : (Generate.certBasePath c).data with
  | nil => simp [IsAbs, PathSeparator, String.data_append, hd]
  | cons a l =>
    rw [hd] at ht
    have ha : a = '/' := by
      simp [IsAbs, PathSeparator, ← ht] at h
      exact h
    subst ha
    simp [IsAbs, PathSeparator, String.data_append, hd]

/-! ## The claims -/

/-- C1. Idempotency guard: when the target directory exists, an entry at the certificate
path makes `Generate` fail with `CertificateExistsErr` carrying the request's common name,
and no entry at the certificate path together with an entry at the key path makes it fail
with `KeyExistsErr` carrying the request's common name, whatever the generator, the
collaborators, the algorithm and the key size. -/
theorem C1_idempotency_guard (c : SelfSignedCertificateGenerator) (env : Env) (fs : FS)
    (request : GenerateRequest)
    (hdir : Stat fs (Generate.certBasePath c) = none) :
    (Stat fs (Generate.certPath (Generate.certBasePath c) request) = none →
      (Generate c env fs request).result =
        .error (.CertificateExistsErr request.CommonName)) ∧
    (Stat fs (Generate.certPath (Generate.certBasePath c) request) = some ENOENT →
      Stat fs (Generate.keyPath (Generate.certBasePath c) request) = none →
      (Generate c env fs request).result = .error (.KeyExistsErr request.CommonName)) := by
  constructor
  · intro hc
    rw [Generate_of_dir hdir, guard_of_cert _ _ _ _ _ hc]
  · intro hc hk
    rw [Generate_of_dir hdir, guard_of_key _ _ _ _ _ hc hk]

theorem C1_idempotency_guard_witness :
    (Generate demoGenerator demoEnv certFS badCurveRequest).result =
        .error (.CertificateExistsErr "svc.internal") ∧
    (Generate demoGenerator demoEnv keyFS badCurveRequest).result =
        .error (.KeyExistsErr "svc.internal") :=
  ⟨(C1_idempotency_guard demoGenerator demoEnv certFS badCurveRequest (by decide)).1
      (by decide),
   (C1_idempotency_guard demoGenerator demoEnv keyFS badCurveRequest (by decide)).2
      (by decide) (by decide)⟩

/-- C2. Calling `Generate` twice with the same common name: after a first call that
succeeds, a second call by the same generator with a request of the same common name, on
the filesystem the first call left and with any collaborators, fails with
`CertificateExistsErr` or `KeyExistsErr` and leaves that filesystem exactly as it was. -/
theorem C2_second_call_fails (c : SelfSignedCertificateGenerator) (env env2 : Env) (fs : FS)
    (request request2 : GenerateRequest) (resp : GenerateResponse)
    (hfirst : (Generate c env fs request).result = .ok resp)
    (hcn : request2.CommonName = request.CommonName) :
    ((Generate c env2 (Generate c env fs request).fs request2).result =
        .error (.CertificateExistsErr request2.CommonName) ∨
     (Generate c env2 (Generate c env fs request).fs request2).result =
        .error (.KeyExistsErr request2.CommonName)) ∧
    (Generate c env2 (Generate c env fs request).fs request2).fs =
      (Generate c env fs request).fs := by
  obtain ⟨fs1, pre, events, he, -, -, hiss, -⟩ := Generate_ok hfirst
  obtain ⟨_, _, _, _, der, pemBlock, -, -, -, -, -, hfs, -⟩ := hiss
  have hcp : Generate.certPath (Generate.certBasePath c) request2 =
      Generate.certPath (Generate.certBasePath c) request := by
    simp [Generate.certPath, hcn]
  have hdir : Stat (Generate c env fs request).fs (Generate.certBasePath c) = none := by
    have := Ensured_stat_base he
    rw [hfs]
    simpa [Stat, FS.set_other _ _ _ _ (keyPath_ne_base _ request).symm,
      FS.set_other _ _ _ _ (certPath_ne_base _ request).symm] using this
  have hcert : Stat (Generate c env fs request).fs
      (Generate.certPath (Generate.certBasePath c) request2) = none := by
    rw [hfs, hcp]
    simp [Stat, FS.set_other _ _ _ _ (certPath_ne_keyPath _ request), FS.set_same]
  rw [Generate_of_dir hdir, guard_of_cert _ _ _ _ _ hcert]
  exact ⟨Or.inl rfl, rfl⟩

theorem C2_second_call_fails_witness :
    ((Generate demoGenerator demoEnv
        (Generate demoGenerator demoEnv rootFS demoRequest).fs badCurveRequest).result =
        .error (.CertificateExistsErr "svc.internal") ∨
     (Generate demoGenerator demoEnv
        (Generate demoGenerator demoEnv rootFS demoRequest).fs badCurveRequest).result =
        .error (.KeyExistsErr "svc.internal")) ∧
    (Generate demoGenerator demoEnv
        (Generate demoGenerator demoEnv rootFS demoRequest).fs badCurveRequest).fs =
      (Generate demoGenerator demoEnv rootFS demoRequest).fs :=
  C2_second_call_fails demoGenerator demoEnv demoEnv rootFS demoRequest badCurveRequest
    ⟨"/certs/svc.internal-key.pem", "/certs/svc.internal.pem"⟩ (by decide) (by decide)

/-- C3. `determineECDSACurve` is the curve/size mapping: 224, 256, 384 and 521 give P-224,
P-256, P-384 and P-521 with no error, every other integer gives no curve and
`InvalidKeySizeError`, and so it succeeds exactly on those four sizes. -/
theorem C3_curve_mapping :
    determineECDSACurve 224 = .ok .P224 ∧ determineECDSACurve 256 = .ok .P256 ∧
    determineECDSACurve 384 = .ok .P384 ∧ determineECDSACurve 521 = .ok .P521 ∧
    (∀ keySize : Int, keySize ≠ 224 → keySize ≠ 256 → keySize ≠ 384 → keySize ≠ 521 →
      determineECDSACurve keySize = .error .InvalidKeySizeError) ∧
    (∀ keySize : Int, (∃ curve, determineECDSACurve keySize = .ok curve) ↔
      (keySize = 224 ∨ keySize = 256 ∨ keySize = 384 ∨ keySize = 521)) := by
  refine ⟨rfl, rfl, rfl, rfl, ?_, ?_⟩
  · intro keySize h1 h2 h3 h4
    simp [determineECDSACurve, h1, h2, h3, h4]
  · intro keySize
    constructor
    · rintro ⟨curve, h⟩
      by_contra hn
      simp only [not_or] at hn
      obtain ⟨h1, h2, h3, h4⟩ := hn
      simp [determineECDSACurve, h1, h2, h3, h4] at h
    · rintro (h | h | h | h) <;> subst h
      exacts [⟨_, rfl⟩, ⟨_, rfl⟩, ⟨_, rfl⟩, ⟨_, rfl⟩]

theorem C3_curve_mapping_witness :
    determineECDSACurve 100 = .error .InvalidKeySizeError ∧
    ¬ ∃ curve, determineECDSACurve (-256) = .ok curve :=
  ⟨C3_curve_mapping.2.2.2.2.1 100 (by decide) (by decide) (by decide) (by decide),
   fun h => absurd ((C3_curve_mapping.2.2.2.2.2 (-256)).1 h) (by decide)⟩

/-- C4, as stated, fails: an ECDSA request with key size 100, run where the certificate
for its common name already exists, fails with `CertificateExistsErr` and not with
`InvalidKeySizeError`. -/
theorem C4_counterexample :
    badCurveRequest.Algorithm = .ECDSA ∧
    (badCurveRequest.KeySize ≠ 224 ∧ badCurveRequest.KeySize ≠ 256 ∧
      badCurveRequest.KeySize ≠ 384 ∧ badCurveRequest.KeySize ≠ 521) ∧
    (Generate demoGenerator demoEnv certFS badCurveRequest).result =
      .error (.CertificateExistsErr "svc.internal") ∧
    (Generate demoGenerator demoEnv certFS badCurveRequest).result ≠
      .error .InvalidKeySizeError := by
  decide

/-- C4, amended. For an ECDSA request whose key size is not one of 224, 256, 384, 521,
`Generate` fails; the error is `InvalidKeySizeError` whenever the calls made before the
key-size check answer so that it is reached (the `stat` of the directory succeeds, or
answers `ENOENT` and the `mkdir` succeeds; the `stat` of the certificate path and of the
key path, made on the filesystem after that, both answer `ENOENT`; the serial number is
drawn); and it writes no files: a path holds a file after the call exactly when it held
the same file before, and no file is created, opened or written. -/
theorem C4_invalid_key_size (c : SelfSignedCertificateGenerator) (env : Env) (fs : FS)
    (request : GenerateRequest) (halg : request.Algorithm = .ECDSA)
    (hsize : request.KeySize ≠ 224 ∧ request.KeySize ≠ 256 ∧ request.KeySize ≠ 384 ∧
      request.KeySize ≠ 521) :
    (∃ err, (Generate c env fs request).result = .error err) ∧
    (∀ fs1 : FS,
      ((Stat fs (Generate.certBasePath c) = none ∧ fs1 = fs) ∨
        (Stat fs (Generate.certBasePath c) = some ENOENT ∧
          Mkdir env.umask env.superuser env.mkdirFault fs (Generate.certBasePath c) 0o740 =
            .ok fs1)) →
      Stat fs1 (Generate.certPath (Generate.certBasePath c) request) = some ENOENT →
      Stat fs1 (Generate.keyPath (Generate.certBasePath c) request) = some ENOENT →
      (∃ serialNumber, env.randInt serialNumberLimit = .ok serialNumber) →
      (Generate c env fs request).result = .error .InvalidKeySizeError) ∧
    (∀ p mode content, (Generate c env fs request).fs p = .file mode content ↔
      fs p = .file mode content) ∧
    (∀ name perm block, Event.create name ∉ (Generate c env fs request).trace ∧
      Event.openFile name perm ∉ (Generate c env fs request).trace ∧
      Event.pemEncode name block ∉ (Generate c env fs request).trace) := by
  have h : request.Algorithm ≠ .RSA ∧
      (request.Algorithm = .ECDSA → ∀ curve, determineECDSACurve request.KeySize ≠ .ok curve) := by
    refine ⟨by simp [halg], fun _ curve hcurve => ?_⟩
    obtain ⟨h1, h2, h3, h4⟩ := hsize
    simp [determineECDSACurve, h1, h2, h3, h4] at hcurve
  obtain ⟨herr, hfs, htr⟩ := Generate_unsupported c env fs request h
  refine ⟨herr, ?_, ?_, ?_⟩
  · rintro fs1 hdir hc hk ⟨serialNumber, hr⟩
    have := Generate_unsupported_error c env fs fs1 request h hdir hc hk serialNumber hr
    simpa [halg] using this
  · intro p mode content
    exact file_iff_of_mkdir (hfs.imp id fun ⟨ha, _, hs⟩ => ⟨ha, hs⟩) p mode content
  · intro name perm block
    refine ⟨fun hin => ?_, fun hin => ?_, fun hin => ?_⟩ <;>
      rcases htr _ hin with h1 | h1 | h1 | h1 | h1 <;> cases h1

theorem C4_invalid_key_size_witness :
    (Generate demoGenerator demoEnv rootFS badCurveRequest).result =
      .error .InvalidKeySizeError ∧
    (Generate demoGenerator demoEnv dirFS badCurveRequest).result =
      .error .InvalidKeySizeError ∧
    (∀ p mode content,
      (Generate demoGenerator demoEnv rootFS badCurveRequest).fs p = .file mode content ↔
        rootFS p = .file mode content) :=
  have h := C4_invalid_key_size demoGenerator demoEnv rootFS badCurveRequest rfl
    (by decide)
  have h1 := C4_invalid_key_size demoGenerator demoEnv dirFS badCurveRequest rfl
    (by decide)
  ⟨h.2.1
      (rootFS.mkdir demoEnv.superuser (Generate.certBasePath demoGenerator)
        (maskPerm 0o740 demoEnv.umask))
      (Or.inr ⟨by decide, rfl⟩) (by decide) (by decide) ⟨7, rfl⟩,
    h1.2.1 dirFS (Or.inl ⟨by decide, rfl⟩) (by decide) (by decide) ⟨7, rfl⟩, h.2.2.1⟩

/-- C5, as stated, fails: a request with an unsupported algorithm, run where the target
directory is absent, returns the error but has created the directory, so the filesystem
is not the one before the call. -/
theorem C5_counterexample :
    otherRequest.Algorithm ≠ .RSA ∧ otherRequest.Algorithm ≠ .ECDSA ∧
    (Generate demoGenerator demoEnv rootFS otherRequest).result =
      .error (.errorString "unsupported algorithm") ∧
    rootFS "/certs" = .absent ∧
    (Generate demoGenerator demoEnv rootFS otherRequest).fs "/certs" = .dir 0o740 ∧
    (Generate demoGenerator demoEnv rootFS otherRequest).fs ≠ rootFS := by
  refine ⟨by decide, by decide, by decide, by decide, by decide, fun h => ?_⟩
  have h1 := congrFun h "/certs"
  revert h1
  decide

/-- C5, amended. For a request whose algorithm is neither RSA nor ECDSA, `Generate`
returns an error, the "unsupported algorithm" one whenever the calls made before the
algorithm switch answer so that it is reached (the `stat` of the directory succeeds, or
answers `ENOENT` and the `mkdir` succeeds; the `stat` of the certificate path and of the
key path, made on the filesystem after that, both answer `ENOENT`; the serial number is
drawn), and creates no files or partial artifacts; the only change it can make is the
creation of the target directory where it was absent, so when the target directory exists
the filesystem after the call is identical to the one before. -/
theorem C5_unsupported_algorithm (c : SelfSignedCertificateGenerator) (env : Env) (fs : FS)
    (request : GenerateRequest) (hrsa : request.Algorithm ≠ .RSA)
    (hecdsa : request.Algorithm ≠ .ECDSA) :
    (∃ err, (Generate c env fs request).result = .error err) ∧
    (∀ fs1 : FS,
      ((Stat fs (Generate.certBasePath c) = none ∧ fs1 = fs) ∨
        (Stat fs (Generate.certBasePath c) = some ENOENT ∧
          Mkdir env.umask env.superuser env.mkdirFault fs (Generate.certBasePath c) 0o740 =
            .ok fs1)) →
      Stat fs1 (Generate.certPath (Generate.certBasePath c) request) = some ENOENT →
      Stat fs1 (Generate.keyPath (Generate.certBasePath c) request) = some ENOENT →
      (∃ serialNumber, env.randInt serialNumberLimit = .ok serialNumber) →
      (Generate c env fs request).result = .error (.errorString "unsupported algorithm")) ∧
    (fs (Generate.certBasePath c) ≠ .absent → (Generate c env fs request).fs = fs) ∧
    ((Generate c env fs request).fs = fs ∨
      (Generate c env fs request).fs =
        fs.mkdir env.superuser (Generate.certBasePath c) (maskPerm 0o740 env.umask)) ∧
    (∀ p mode content, (Generate c env fs request).fs p = .file mode content ↔
      fs p = .file mode content) ∧
    (∀ name perm block, Event.create name ∉ (Generate c env fs request).trace ∧
      Event.openFile name perm ∉ (Generate c env fs request).trace ∧
      Event.pemEncode name block ∉ (Generate c env fs request).trace) := by
  have h : request.Algorithm ≠ .RSA ∧
      (request.Algorithm = .ECDSA → ∀ curve, determineECDSACurve request.KeySize ≠ .ok curve) :=
    ⟨hrsa, fun he => absurd he hecdsa⟩
  obtain ⟨herr, hfs, htr⟩ := Generate_unsupported c env fs request h
  refine ⟨herr, ?_, ?_, ?_, ?_, ?_⟩
  · rintro fs1 hdir hc hk ⟨serialNumber, hr⟩
    have := Generate_unsupported_error c env fs fs1 request h hdir hc hk serialNumber hr
    cases ha : request.Algorithm with
    | RSA => exact absurd ha hrsa
    | ECDSA => exact absurd ha hecdsa
    | other v => simpa [ha] using this
  · intro hne
    rcases hfs with hfs | ⟨ha, -, -⟩
    exacts [hfs, absurd ha hne]
  · exact hfs.imp id fun ⟨_, _, hs⟩ => hs
  · intro p mode content
    exact file_iff_of_mkdir (hfs.imp id fun ⟨ha, _, hs⟩ => ⟨ha, hs⟩) p mode content
  · intro name perm block
    refine ⟨fun hin => ?_, fun hin => ?_, fun hin => ?_⟩ <;>
      rcases htr _ hin with h1 | h1 | h1 | h1 | h1 <;> cases h1

theorem C5_unsupported_algorithm_witness :
    (Generate demoGenerator demoEnv dirFS otherRequest).result =
      .error (.errorString "unsupported algorithm") ∧
    (Generate demoGenerator demoEnv rootFS otherRequest).result =
      .error (.errorString "unsupported algorithm") ∧
    (Generate demoGenerator demoEnv dirFS otherRequest).fs = dirFS :=
  have h := C5_unsupported_algorithm demoGenerator demoEnv dirFS otherRequest (by decide)
    (by decide)
  have h1 := C5_unsupported_algorithm demoGenerator demoEnv rootFS otherRequest (by decide)
    (by decide)
  ⟨h.2.1 dirFS (Or.inl ⟨by decide, rfl⟩) (by decide) (by decide) ⟨7, rfl⟩,
    h1.2.1
      (rootFS.mkdir demoEnv.superuser (Generate.certBasePath demoGenerator)
        (maskPerm 0o740 demoEnv.umask))
      (Or.inr ⟨by decide, rfl⟩) (by decide) (by decide) ⟨7, rfl⟩,
    h.2.2.1 (by decide)⟩

/-- C6. Self-signing with a matching key: on every successful run the private key is
the one generated in that run (RSA of the requested size, or ECDSA on the curve of the
requested size), the signing primitive is invoked exactly with one template as both
certificate and parent, the public half of that key and that key as signer, the
certificate file holds the PEM encoding of what that invocation returned, and the key file
holds the PEM encoding of that same private key. -/
theorem C6_self_signed_matching_key (c : SelfSignedCertificateGenerator) (env : Env)
    (fs : FS) (request : GenerateRequest) (resp : GenerateResponse)
    (h : (Generate c env fs request).result = .ok resp) :
    ∃ (template : Certificate) (pub priv : AnyKey) (der : List Nat) (pemBlock : Block),
      ((request.Algorithm = .RSA ∧ ∃ key,
          env.rsaGenerateKey request.KeySize = .ok key ∧
          Event.rsaGenerateKey request.KeySize ∈ (Generate c env fs request).trace ∧
          pub = .rsaPublicKey key.PublicKey ∧ priv = .rsaPrivateKey key ∧
          pemBlock = ⟨"RSA PRIVATE KEY", env.marshalPKCS1PrivateKey key⟩) ∨
       (request.Algorithm = .ECDSA ∧ ∃ curve key bytes,
          determineECDSACurve request.KeySize = .ok curve ∧
          env.ecdsaGenerateKey curve = .ok key ∧
          Event.ecdsaGenerateKey curve ∈ (Generate c env fs request).trace ∧
          pub = .ecdsaPublicKey key.PublicKey ∧ priv = .ecdsaPrivateKey key ∧
          env.marshalECPrivateKey key = .ok bytes ∧
          pemBlock = ⟨"EC PRIVATE KEY", bytes⟩)) ∧
      (∀ t p pb pv, Event.createCertificate t p pb pv ∈ (Generate c env fs request).trace ↔
        (t = template ∧ p = template ∧ pb = pub ∧ pv = priv)) ∧
      env.createCertificate template template pub priv = .ok der ∧
      (Generate c env fs request).fs resp.CertPath =
        .file (maskPerm 0o666 env.umask) (env.pemEncode ⟨"CERTIFICATE", der⟩) ∧
      pemBlockForKey env priv = .ok (some pemBlock) ∧
      (Generate c env fs request).fs resp.KeyPath =
        .file (maskPerm 0o600 env.umask) (env.pemEncode pemBlock) := by
  obtain ⟨fs1, pre, events, he, -, -, hiss, htr, -⟩ := Generate_ok h
  obtain ⟨serialNumber, pub, priv, keyEvent, der, pemBlock, -, hkey, hsign, hblock, hresp,
    hfs, hev⟩ := hiss
  have hpre : ∀ ev ∈ pre, ev = .stat (Generate.certBasePath c) ∨
      ev = .mkdir (Generate.certBasePath c) 0o740 := by
    intro ev hin
    rcases he with ⟨-, -, rfl⟩ | ⟨-, -, -, -, rfl⟩ <;> simp at hin
    · exact Or.inl hin
    · exact hin
  have hkeyEvent : ∀ t p pb pv, keyEvent ≠ .createCertificate t p pb pv := by
    intro t p pb pv
    rcases hkey with ⟨-, key, -, -, -, rfl, -⟩ | ⟨-, curve, key, bytes, -, -, -, -, rfl, -, -⟩ <;>
      simp
  refine ⟨Generate.template c request env.now serialNumber, pub, priv, der, pemBlock, ?_, ?_,
    hsign, ?_, hblock, ?_⟩
  · rcases hkey with ⟨ha, key, hg, hp, hv, hk, hb⟩ | ⟨ha, curve, key, bytes, hd, hg, hp, hv, hk,
      hm, hb⟩
    · refine Or.inl ⟨ha, key, hg, ?_, hp, hv, hb⟩
      rw [htr, hev, hk]; simp
    · refine Or.inr ⟨ha, curve, key, bytes, hd, hg, ?_, hp, hv, hm, hb⟩
      rw [htr, hev, hk]; simp
  · intro t p pb pv
    rw [htr, hev]
    simp only [List.mem_append, List.mem_cons, List.mem_singleton, List.not_mem_nil,
      persistEvents, or_false]
    constructor
    · rintro (((hin | hin) | hin) | ((hin | hin | hin) | hin))
      · rcases hpre _ hin with h1 | h1 <;> cases h1
      · cases hin
      · cases hin
      · cases hin
      · exact absurd hin.symm (hkeyEvent t p pb pv)
      · cases hin; exact ⟨rfl, rfl, rfl, rfl⟩
      · rcases hin with hin | hin | hin | hin | hin | hin <;> cases hin
    · rintro ⟨rfl, rfl, rfl, rfl⟩
      exact Or.inr (Or.inl (Or.inr (Or.inr rfl)))
  · rw [hfs, hresp]
    simp [FS.set_other _ _ _ _ (certPath_ne_keyPath _ request), FS.set_same]
  · rw [hfs, hresp]
    simp [FS.set_same]

theorem C6_self_signed_matching_key_witness :
    ∃ (template : Certificate) (pub priv : AnyKey) (der : List Nat) (pemBlock : Block),
      ((ecdsaRequest.Algorithm = .RSA ∧ ∃ key,
          demoEnv.rsaGenerateKey ecdsaRequest.KeySize = .ok key ∧
          Event.rsaGenerateKey ecdsaRequest.KeySize ∈
            (Generate demoGenerator demoEnv rootFS ecdsaRequest).trace ∧
          pub = .rsaPublicKey key.PublicKey ∧ priv = .rsaPrivateKey key ∧
          pemBlock = ⟨"RSA PRIVATE KEY", demoEnv.marshalPKCS1PrivateKey key⟩) ∨
       (ecdsaRequest.Algorithm = .ECDSA ∧ ∃ curve key bytes,
          determineECDSACurve ecdsaRequest.KeySize = .ok curve ∧
          demoEnv.ecdsaGenerateKey curve = .ok key ∧
          Event.ecdsaGenerateKey curve ∈
            (Generate demoGenerator demoEnv rootFS ecdsaRequest).trace ∧
          pub = .ecdsaPublicKey key.PublicKey ∧ priv = .ecdsaPrivateKey key ∧
          demoEnv.marshalECPrivateKey key = .ok bytes ∧
          pemBlock = ⟨"EC PRIVATE KEY", bytes⟩)) ∧
      (∀ t p pb pv, Event.createCertificate t p pb pv ∈
          (Generate demoGenerator demoEnv rootFS ecdsaRequest).trace ↔
        (t = template ∧ p = template ∧ pb = pub ∧ pv = priv)) ∧
      demoEnv.createCertificate template template pub priv = .ok der ∧
      (Generate demoGenerator demoEnv rootFS ecdsaRequest).fs "/certs/svc.internal.pem" =
        .file (maskPerm 0o666 demoEnv.umask) (demoEnv.pemEncode ⟨"CERTIFICATE", der⟩) ∧
      pemBlockForKey demoEnv priv = .ok (some pemBlock) ∧
      (Generate demoGenerator demoEnv rootFS ecdsaRequest).fs "/certs/svc.internal-key.pem" =
        .file (maskPerm 0o600 demoEnv.umask) (demoEnv.pemEncode pemBlock) :=
  C6_self_signed_matching_key demoGenerator demoEnv rootFS ecdsaRequest
    ⟨"/certs/svc.internal-key.pem", "/certs/svc.internal.pem"⟩ (by decide)

/-- C7. Certificate template construction: every template `Generate` hands to the
signing primitive has the request's common name as its only DNS name and as subject
common name, the request's admin email as its only email address, key usage exactly key
encipherment, digital signature, certificate signing and CRL signing, extended key usage
exactly server authentication, `IsCA = false`, basic constraints valid, and
`NotAfter = NotBefore + CertificateValidity` for every validity, zero and negative
included. -/
theorem C7_template (c : SelfSignedCertificateGenerator) (env : Env) (fs : FS)
    (request : GenerateRequest) (template parent : Certificate) (pub priv : AnyKey)
    (h : Event.createCertificate template parent pub priv ∈ (Generate c env fs request).trace) :
    template.DNSNames = [request.CommonName] ∧
    template.EmailAddresses = [request.AdminEmail] ∧
    template.Subject.CommonName = request.CommonName ∧
    template.KeyUsage = KeyUsageKeyEncipherment ||| KeyUsageDigitalSignature |||
      KeyUsageCertSign ||| KeyUsageCRLSign ∧
    template.ExtKeyUsage = [ExtKeyUsageServerAuth] ∧
    template.IsCA = false ∧
    template.BasicConstraintsValid = true ∧
    template.NotAfter = template.NotBefore + c.CertificateValidity := by
  rcases Generate_trace c env fs request _ h with h1 | ⟨h1, -⟩ | h1
  · cases h1
  · cases h1
  · obtain ⟨-, ⟨serialNumber, -, rfl⟩, -⟩ := h1
    refine ⟨rfl, rfl, rfl, ?_, rfl, rfl, rfl, rfl⟩
    simp only [Generate.template]
    decide

theorem C7_template_witness :
    Event.createCertificate (Generate.template demoGenerator demoRequest 1000 7)
        (Generate.template demoGenerator demoRequest 1000 7)
        (.rsaPublicKey ⟨3233, 17⟩) (.rsaPrivateKey ⟨⟨3233, 17⟩, 2753, [61, 53]⟩) ∈
      (Generate demoGenerator demoEnv rootFS demoRequest).trace ∧
    (Generate.template demoGenerator demoRequest 1000 7).DNSNames = ["svc.internal"] ∧
    (Generate.template demoGenerator demoRequest 1000 7).NotAfter =
      (Generate.template demoGenerator demoRequest 1000 7).NotBefore + 3600000000000 :=
  have h := C7_template demoGenerator demoEnv rootFS demoRequest
    (Generate.template demoGenerator demoRequest 1000 7)
    (Generate.template demoGenerator demoRequest 1000 7)
    (.rsaPublicKey ⟨3233, 17⟩) (.rsaPrivateKey ⟨⟨3233, 17⟩, 2753, [61, 53]⟩) (by decide)
  ⟨by decide, h.1, h.2.2.2.2.2.2.2⟩

/-- C8. File naming: on every successful run the returned certificate path is
`D/CN.pem` and the returned key path is `D/CN-key.pem`, where `D` is the configured base
path less all its trailing separators (so `D` ends in no separator); these are the two
paths the existence guard checks, the only paths opened and written are these two, and
nothing else but the directory `D` can differ afterwards. -/
theorem C8_file_naming (c : SelfSignedCertificateGenerator) (env : Env) (fs : FS)
    (request : GenerateRequest) (resp : GenerateResponse)
    (h : (Generate c env fs request).result = .ok resp) :
    resp.CertPath = Generate.certBasePath c ++ "/" ++ request.CommonName ++ ".pem" ∧
    resp.KeyPath = Generate.certBasePath c ++ "/" ++ request.CommonName ++ "-key.pem" ∧
    (∃ n, c.CertificateBasePath = Generate.certBasePath c ++ ⟨List.replicate n '/'⟩) ∧
    (∀ s : String, Generate.certBasePath c ≠ s ++ "/") ∧
    (Event.stat resp.CertPath ∈ (Generate c env fs request).trace ∧
      Event.stat resp.KeyPath ∈ (Generate c env fs request).trace ∧
      ∀ name, Event.stat name ∈ (Generate c env fs request).trace →
        name = Generate.certBasePath c ∨ name = resp.CertPath ∨ name = resp.KeyPath) ∧
    (Event.create resp.CertPath ∈ (Generate c env fs request).trace ∧
      ∀ name, Event.create name ∈ (Generate c env fs request).trace → name = resp.CertPath) ∧
    (Event.openFile resp.KeyPath 0o600 ∈ (Generate c env fs request).trace ∧
      ∀ name perm, Event.openFile name perm ∈ (Generate c env fs request).trace →
        name = resp.KeyPath) ∧
    (∀ name block, Event.pemEncode name block ∈ (Generate c env fs request).trace →
      (name = resp.CertPath ∧ block.type = "CERTIFICATE") ∨
      (name = resp.KeyPath ∧
        (block.type = "RSA PRIVATE KEY" ∨ block.type = "EC PRIVATE KEY"))) ∧
    (∃ der, Event.pemEncode resp.CertPath ⟨"CERTIFICATE", der⟩ ∈
        (Generate c env fs request).trace ∧
      (Generate c env fs request).fs resp.CertPath =
        .file (maskPerm 0o666 env.umask) (env.pemEncode ⟨"CERTIFICATE", der⟩)) ∧
    (∃ pemBlock, Event.pemEncode resp.KeyPath pemBlock ∈ (Generate c env fs request).trace ∧
      (Generate c env fs request).fs resp.KeyPath =
        .file (maskPerm 0o600 env.umask) (env.pemEncode pemBlock)) ∧
    (∀ p, p ≠ Generate.certBasePath c → p ≠ resp.CertPath → p ≠ resp.KeyPath →
      (Generate c env fs request).fs p = fs p) := by
  obtain ⟨fs1, pre, events, he, -, -, hiss, htr, hframe⟩ := Generate_ok h
  obtain ⟨serialNumber, pub, priv, keyEvent, der, pemBlock, -, -, -, -, hresp, hfs, hev⟩ := hiss
  have hcp : resp.CertPath = Generate.certPath (Generate.certBasePath c) request := by
    rw [hresp]
  have hkp : resp.KeyPath = Generate.keyPath (Generate.certBasePath c) request := by
    rw [hresp]
  have hall := Generate_trace c env fs request
  rw [hcp, hkp]
  refine ⟨?_, ?_, certBasePath_trailing c, certBasePath_no_trailing c, ⟨?_, ?_, ?_⟩, ⟨?_, ?_⟩,
    ⟨?_, ?_⟩, ?_, ⟨der, ?_, ?_⟩, ⟨pemBlock, ?_, ?_⟩, ?_⟩
  · rw [certPath_eq, String.append_assoc (Generate.certBasePath c ++ "/")]
  · rw [keyPath_eq, String.append_assoc (Generate.certBasePath c ++ "/")]
  · rw [htr]; simp
  · rw [htr]; simp
  · intro name hin
    rcases hall _ hin with h1 | ⟨h1, -⟩ | h1
    · cases h1; exact Or.inl rfl
    · cases h1
    · exact Or.inr h1
  · rw [htr, hev]; simp [persistEvents]
  · intro name hin
    rcases hall _ hin with h1 | ⟨h1, -⟩ | h1
    · cases h1
    · cases h1
    · exact h1
  · rw [htr, hev]; simp [persistEvents]
  · intro name perm hin
    rcases hall _ hin with h1 | ⟨h1, -⟩ | h1
    · cases h1
    · cases h1
    · exact h1.1
  · intro name block hin
    rcases hall _ hin with h1 | ⟨h1, -⟩ | h1
    · cases h1
    · cases h1
    · exact h1
  · rw [htr, hev]; simp [persistEvents]
  · rw [hfs]
    simp [FS.set_other _ _ _ _ (certPath_ne_keyPath _ request), FS.set_same]
  · rw [htr, hev]; simp [persistEvents]
  · rw [hfs]; simp [FS.set_same]
  · intro p hb hc hk
    rw [hfs, FS.set_other _ _ _ _ hk, FS.set_other _ _ _ _ hc]
    exact hframe p hb

theorem C8_file_naming_witness :
    (⟨"/certs/svc.internal-key.pem", "/certs/svc.internal.pem"⟩ : GenerateResponse).CertPath =
      Generate.certBasePath demoGenerator ++ "/" ++ demoRequest.CommonName ++ ".pem" ∧
    (∃ n, demoGenerator.CertificateBasePath =
      Generate.certBasePath demoGenerator ++ ⟨List.replicate n '/'⟩) ∧
    (∀ s : String, Generate.certBasePath demoGenerator ≠ s ++ "/") :=
  have h := C8_file_naming demoGenerator demoEnv rootFS demoRequest
    ⟨"/certs/svc.internal-key.pem", "/certs/svc.internal.pem"⟩ (by decide)
  ⟨h.1, h.2.2.1, h.2.2.2.1⟩

/-- C9, as stated, fails: a generator configured with the relative base path `certs`
succeeds and returns the paths `certs/svc.internal.pem` and `certs/svc.internal-key.pem`,
neither of which is absolute. -/
theorem C9_counterexample :
    (Generate relativeGenerator demoEnv rootFS demoRequest).result =
      .ok ⟨"certs/svc.internal-key.pem", "certs/svc.internal.pem"⟩ ∧
    IsAbs "certs/svc.internal.pem" = false ∧ IsAbs "certs/svc.internal-key.pem" = false := by
  decide

/-- C9, amended. For every generator whose configured `CertificateBasePath` is absolute
and every request for which `Generate` succeeds, both paths in the response are
absolute. -/
theorem C9_absolute_paths (c : SelfSignedCertificateGenerator) (env : Env) (fs : FS)
    (request : GenerateRequest) (resp : GenerateResponse)
    (habs : IsAbs c.CertificateBasePath = true)
    (h : (Generate c env fs request).result = .ok resp) :
    IsAbs resp.CertPath = true ∧ IsAbs resp.KeyPath = true := by
  obtain ⟨fs1, pre, events, -, -, -, hiss, -⟩ := Generate_ok h
  obtain ⟨_, _, _, _, _, _, -, -, -, -, hresp, -, -⟩ := hiss
  rw [hresp]
  exact ⟨IsAbs_join c _ habs, IsAbs_join c _ habs⟩

theorem C9_absolute_paths_witness :
    IsAbs (⟨"/certs/svc.internal-key.pem", "/certs/svc.internal.pem"⟩ :
      GenerateResponse).CertPath = true ∧
    IsAbs (⟨"/certs/svc.internal-key.pem", "/certs/svc.internal.pem"⟩ :
      GenerateResponse).KeyPath = true :=
  C9_absolute_paths demoGenerator demoEnv rootFS demoRequest
    ⟨"/certs/svc.internal-key.pem", "/certs/svc.internal.pem"⟩ (by decide) (by decide)

/-- C10, as stated, fails: run where the target directory is absent, under the umask
`022`, `Generate` calls `mkdir` with the permission bits `0740` and the directory it
leaves has mode `0740`, which is not `0700`: the group read bit is set. -/
theorem C10_counterexample :
    rootFS (Generate.certBasePath demoGenerator) = .absent ∧
    Event.mkdir (Generate.certBasePath demoGenerator) 0o740 ∈
      (Generate demoGenerator demoEnv rootFS demoRequest).trace ∧
    (Generate demoGenerator demoEnv rootFS demoRequest).fs
      (Generate.certBasePath demoGenerator) = .dir 0o740 ∧
    (Generate demoGenerator demoEnv rootFS demoRequest).fs
      (Generate.certBasePath demoGenerator) ≠ .dir 0o700 ∧
    0o740 &&& 0o077 ≠ 0 := by
  decide

/-- C10, amended. Directory ensure: when the target directory does not exist (and the
platform does not refuse the call) `Generate` creates it by `mkdir` with the permission
bits `0740`, so the directory has mode `0740` less the umask: read, write and execute for
the owner, read for the group, nothing for others. When the directory already exists
`Generate` calls no `mkdir`, creates no directory, leaves the directory entry as it is and
goes on to the check of the certificate path. -/
theorem C10_directory_ensure (c : SelfSignedCertificateGenerator) (env : Env) (fs : FS)
    (request : GenerateRequest) :
    (fs (Generate.certBasePath c) = .absent → env.mkdirFault = none →
      Event.mkdir (Generate.certBasePath c) 0o740 ∈ (Generate c env fs request).trace ∧
      (Generate c env fs request).fs (Generate.certBasePath c) =
        .dir (maskPerm 0o740 env.umask)) ∧
    (Stat fs (Generate.certBasePath c) = none →
      (∀ name perm, Event.mkdir name perm ∉ (Generate c env fs request).trace) ∧
      (∀ p mode, (Generate c env fs request).fs p = .dir mode → fs p = .dir mode) ∧
      (Generate c env fs request).fs (Generate.certBasePath c) = fs (Generate.certBasePath c) ∧
      [Event.stat (Generate.certBasePath c),
        Event.stat (Generate.certPath (Generate.certBasePath c) request)] <+:
        (Generate c env fs request).trace) := by
  constructor
  · intro ha hm
    rw [Generate_of_absent ha hm]
    constructor
    · apply (guard_extends c env _ _ request _).subset
      simp
    · rw [guard_frame _ _ _ _ _ _ _ (certPath_ne_base _ request).symm
        (keyPath_ne_base _ request).symm, FS.mkdir_same]
  · intro hdir
    refine ⟨?_, ?_, ?_, ?_⟩
    · intro name perm hin
      rcases Generate_trace c env fs request _ hin with h1 | ⟨-, h1⟩ | h1
      · cases h1
      · rw [hdir] at h1; cases h1
      · exact h1
    · intro p mode hp
      rw [Generate_of_dir hdir] at hp
      rcases guard_entry c env fs _ request _ p with h1 | ⟨m, content, h1⟩
      · rw [← h1, hp]
      · rw [hp] at h1; cases h1
    · rw [Generate_of_dir hdir]
      exact guard_frame _ _ _ _ _ _ _ (certPath_ne_base _ request).symm
        (keyPath_ne_base _ request).symm
    · rw [Generate_of_dir hdir]
      exact guard_extends c env fs [.stat (Generate.certBasePath c)] request _

theorem C10_directory_ensure_witness :
    (Event.mkdir (Generate.certBasePath demoGenerator) 0o740 ∈
        (Generate demoGenerator demoEnv rootFS demoRequest).trace ∧
      (Generate demoGenerator demoEnv rootFS demoRequest).fs
        (Generate.certBasePath demoGenerator) = .dir (maskPerm 0o740 demoEnv.umask)) ∧
    (∀ name perm,
      Event.mkdir name perm ∉ (Generate demoGenerator demoEnv dirFS demoRequest).trace) :=
  have h := C10_directory_ensure demoGenerator demoEnv
  ⟨(h rootFS demoRequest).1 (by decide) rfl, ((h dirFS demoRequest).2 (by decide)).1⟩

end Talisman
